import Mathlib

/-!
Verification development for the NEM language front end (nemlib): the lexer,
the recursive-descent parser with statement-level error recovery, the AST node
model, the diagnostics collector and the constant integer expression
evaluator, shallowly embedded from `libs/nemlib/nemlib/parser/lexer.py`,
`parser.py`, `tokens.py`, `ast_nodes.py`, `errors.py`,
`diagnostics/collector.py` and `core/expressions.py`.

Embedding conventions:
* Python strings are `String` / `List Char`; character classes (`isdigit`,
  `isalpha`, `isalnum`) are modelled on the ASCII range, which is where every
  token of the language lives.
* Python `int` is `Int` (arbitrary precision, as in CPython); `dict[str, int]`
  is an association list looked up front-to-back (dict keys are unique, so the
  first hit is the dict hit).
* Python exceptions (`ParseError`, `ConstEvalError`, and the builtin
  `ValueError` that `float(...)` raises in `_parse_primary`) are explicit
  error results, tagged with their exception class so that `except
  ParseError` handlers catch exactly the parse errors; the shared mutable
  `DiagnosticCollector` is an explicitly threaded list of diagnostics,
  appended in emission order.
* Recursive procedures carry an explicit `fuel : Nat` so that every function
  is a total, executable Lean definition; the fuel bounds used by the
  top-level entry points are generous over-approximations of the recursion
  depth, and the exhaustion branches are unreachable for them.  Exhaustion in
  the lexer returns the tokens read so far; in the parser it surfaces as the
  local parse-error signal (which the statement dispatch loop catches, like
  every other parse error).
* CPython's true division of two `int`s (`left / right` producing a `float`)
  is modelled exactly: the rational quotient is rounded to the nearest
  IEEE-754 binary64 value (ties to even, subnormal quanta below `2^-1022`,
  `OverflowError` at `2^1024`), and `int(...)` then truncates toward zero.
-/

namespace Nem

/-! ## Source locations, diagnostics (diagnostics/location.py, collector.py) -/

structure SourceLocation where
  file : String
  line : Nat
  column : Nat
deriving DecidableEq, Repr

inductive DiagnosticSeverity where
  | error
  | warning
  | info
deriving DecidableEq, Repr

structure Diagnostic where
  severity : DiagnosticSeverity
  message : String
  location : Option SourceLocation
  notes : List String
deriving DecidableEq, Repr

/-- `DiagnosticCollector.error(message, location)`: the record it appends. -/
def mkError (message : String) (location : Option SourceLocation) : Diagnostic :=
  ⟨.error, message, location, []⟩

/-- `DiagnosticCollector.has_errors()`. -/
def hasErrors (diags : List Diagnostic) : Bool :=
  diags.any fun d => d.severity == .error

/-! ## Token kinds and tokens (parser/tokens.py) -/

inductive TokenKind where
  | PROGRAM | DEVICE | CONST | BUFFER | LET | LOOP | ENDLOOP | IN | OUT | INCLUDE
  | TRANSFER | STORE | WAIT | REGION
  | EXTENDS | TYPE_FAMILY | OPCODE | TOPOLOGY | MANDATORY | EXTENDED | SPEC_VERSION
  | I4 | I8 | I16 | I32 | U8 | U16 | U32 | F16 | BF16 | TF32 | F32 | F64 | BOOL_TYPE
  | DDR | L2 | L1
  | SIZE | ALIGN | ELEM | SHAPE | LAYOUT | STRIDES | QUANT | DEPS | ASYNC | SYNC
  | PLUS | MINUS | STAR | SLASH | MOD
  | LPAREN | RPAREN | LBRACKET | RBRACKET | LBRACE | RBRACE
  | COLON | SEMICOLON | COMMA | DOT | DOTDOT | EQUALS | AT | LANGLE | RANGLE
  | INT_LIT | FLOAT_LIT | STRING_LIT | IDENT
  | NEWLINE | EOF
deriving DecidableEq, Repr

/-- `TokenKind.<member>.name` (Python `Enum.name`), used in diagnostics text. -/
def kindName : TokenKind → String
  | .PROGRAM => "PROGRAM" | .DEVICE => "DEVICE" | .CONST => "CONST"
  | .BUFFER => "BUFFER" | .LET => "LET" | .LOOP => "LOOP" | .ENDLOOP => "ENDLOOP"
  | .IN => "IN" | .OUT => "OUT" | .INCLUDE => "INCLUDE" | .TRANSFER => "TRANSFER"
  | .STORE => "STORE" | .WAIT => "WAIT" | .REGION => "REGION"
  | .EXTENDS => "EXTENDS" | .TYPE_FAMILY => "TYPE_FAMILY" | .OPCODE => "OPCODE"
  | .TOPOLOGY => "TOPOLOGY" | .MANDATORY => "MANDATORY" | .EXTENDED => "EXTENDED"
  | .SPEC_VERSION => "SPEC_VERSION"
  | .I4 => "I4" | .I8 => "I8" | .I16 => "I16" | .I32 => "I32"
  | .U8 => "U8" | .U16 => "U16" | .U32 => "U32"
  | .F16 => "F16" | .BF16 => "BF16" | .TF32 => "TF32" | .F32 => "F32"
  | .F64 => "F64" | .BOOL_TYPE => "BOOL_TYPE"
  | .DDR => "DDR" | .L2 => "L2" | .L1 => "L1"
  | .SIZE => "SIZE" | .ALIGN => "ALIGN" | .ELEM => "ELEM" | .SHAPE => "SHAPE"
  | .LAYOUT => "LAYOUT" | .STRIDES => "STRIDES" | .QUANT => "QUANT"
  | .DEPS => "DEPS" | .ASYNC => "ASYNC" | .SYNC => "SYNC"
  | .PLUS => "PLUS" | .MINUS => "MINUS" | .STAR => "STAR" | .SLASH => "SLASH"
  | .MOD => "MOD"
  | .LPAREN => "LPAREN" | .RPAREN => "RPAREN" | .LBRACKET => "LBRACKET"
  | .RBRACKET => "RBRACKET" | .LBRACE => "LBRACE" | .RBRACE => "RBRACE"
  | .COLON => "COLON" | .SEMICOLON => "SEMICOLON" | .COMMA => "COMMA"
  | .DOT => "DOT" | .DOTDOT => "DOTDOT" | .EQUALS => "EQUALS" | .AT => "AT"
  | .LANGLE => "LANGLE" | .RANGLE => "RANGLE"
  | .INT_LIT => "INT_LIT" | .FLOAT_LIT => "FLOAT_LIT"
  | .STRING_LIT => "STRING_LIT" | .IDENT => "IDENT"
  | .NEWLINE => "NEWLINE" | .EOF => "EOF"

/-- The `KEYWORDS` table of tokens.py (keyword lexeme -> kind). -/
def KEYWORDS : List (String × TokenKind) :=
  [("program", .PROGRAM), ("device", .DEVICE), ("const", .CONST),
   ("buffer", .BUFFER), ("let", .LET), ("loop", .LOOP), ("endloop", .ENDLOOP),
   ("in", .IN), ("out", .OUT), ("include", .INCLUDE),
   ("transfer", .TRANSFER), ("store", .STORE), ("wait", .WAIT),
   ("region", .REGION), ("extends", .EXTENDS), ("type_family", .TYPE_FAMILY),
   ("opcode", .OPCODE), ("topology", .TOPOLOGY), ("mandatory", .MANDATORY),
   ("extended", .EXTENDED), ("spec_version", .SPEC_VERSION),
   ("i4", .I4), ("i8", .I8), ("i16", .I16), ("i32", .I32),
   ("u8", .U8), ("u16", .U16), ("u32", .U32),
   ("f16", .F16), ("bf16", .BF16), ("tf32", .TF32), ("f32", .F32),
   ("f64", .F64), ("bool", .BOOL_TYPE),
   ("DDR", .DDR), ("L2", .L2), ("L1", .L1),
   ("size", .SIZE), ("align", .ALIGN), ("elem", .ELEM), ("shape", .SHAPE),
   ("layout", .LAYOUT), ("strides", .STRIDES), ("quant", .QUANT),
   ("deps", .DEPS), ("async", .ASYNC), ("sync", .SYNC), ("mod", .MOD)]

structure Token where
  kind : TokenKind
  lexeme : String
  location : SourceLocation
deriving DecidableEq, Repr

/-- The `_SINGLE_CHAR` table of lexer.py. -/
def SINGLE_CHAR : List (Char × TokenKind) :=
  [('+', .PLUS), ('-', .MINUS), ('*', .STAR), ('/', .SLASH),
   ('(', .LPAREN), (')', .RPAREN), ('[', .LBRACKET), (']', .RBRACKET),
   ('\x7b', .LBRACE), ('\x7d', .RBRACE),
   (':', .COLON), (';', .SEMICOLON), (',', .COMMA), ('=', .EQUALS),
   ('@', .AT), ('<', .LANGLE), ('>', .RANGLE)]

/-! ## The lexer (parser/lexer.py) -/

/-- Python `repr` of a one-character string, as it appears in the
`"Unexpected character: ..."` diagnostic.  Modelled for printable ASCII and
the common escapes; Python prefers single quotes, switching to double quotes
when the character is itself a single quote. -/
def pyCharRepr (c : Char) : String :=
  if c = '\'' then "\"'\""
  else if c = '\\' then "'\\\\'"
  else if c = '\n' then "'\\n'"
  else if c = '\t' then "'\\t'"
  else if c = '\r' then "'\\r'"
  else "'" ++ Char.toString c ++ "'"

/-- Python `repr` of a string (used in `got ... {lexeme!r}` diagnostics).
Modelled for the common case: single-quoted unless the text contains a single
quote and no double quote, with backslashes and quotes escaped. -/
def pyStrRepr (s : String) : String :=
  let esc : Char → String := fun c =>
    if c = '\\' then "\\\\"
    else if c = '\n' then "\\n"
    else if c = '\t' then "\\t"
    else if c = '\r' then "\\r"
    else Char.toString c
  if s.contains '\'' && !(s.contains '"') then
    "\"" ++ String.join (s.data.map esc) ++ "\""
  else
    "'" ++ String.join (s.data.map (fun c => if c = '\'' then "\\'" else esc c)) ++ "'"

/-- Advance the lexer's line/column bookkeeping over one consumed character
(`Lexer._advance`). -/
def advLC (c : Char) (line col : Nat) : Nat × Nat :=
  if c = '\n' then (line + 1, 1) else (line, col + 1)

/-- `Lexer._skip_comment`: consume from the current position (the `#`) up to,
but not including, the next newline; returns the rest and the new column. -/
def skipComment : List Char → Nat → List Char × Nat
  | [], col => ([], col)
  | c :: rest, col =>
      if c = '\n' then (c :: rest, col) else skipComment rest (col + 1)

/-- Consume a maximal run of ASCII digits; returns (digits, rest, new column). -/
def takeDigits : List Char → Nat → List Char × List Char × Nat
  | [], col => ([], [], col)
  | c :: rest, col =>
      if c.isDigit then
        let (ds, r, col') := takeDigits rest (col + 1)
        (c :: ds, r, col')
      else ([], c :: rest, col)

/-- Consume a maximal run of identifier characters (`isalnum` or `_`). -/
def takeIdentChars : List Char → Nat → List Char × List Char × Nat
  | [], col => ([], [], col)
  | c :: rest, col =>
      if c.isAlphanum || c = '_' then
        let (ds, r, col') := takeIdentChars rest (col + 1)
        (c :: ds, r, col')
      else ([], c :: rest, col)

/-- `Lexer._scan_string`: the opening `"` was already consumed at
(startLine, startCol); scans the body, decoding the four recognized escapes
and passing unknown escapes through as `\c`.  Returns the token, the rest of
the input, the updated line/column and the diagnostics it emitted. -/
def scanString (fn : String) (startLine startCol : Nat) :
    List Char → List Char → Nat → Nat → Token × List Char × Nat × Nat × List Diagnostic
  | acc, [], line, col =>
      (⟨.STRING_LIT, "\"" ++ String.mk acc.reverse, ⟨fn, startLine, startCol⟩⟩,
       [], line, col,
       [mkError "Unterminated string literal" (some ⟨fn, startLine, startCol⟩)])
  | acc, c :: rest, line, col =>
      if c = '"' then
        (⟨.STRING_LIT, "\"" ++ String.mk acc.reverse ++ "\"", ⟨fn, startLine, startCol⟩⟩,
         rest, line, col + 1, [])
      else if c = '\\' then
        match rest with
        | [] =>
            -- `break` after the unterminated-escape diagnostic falls through to
            -- the end-of-input diagnostic and best-effort token.
            (⟨.STRING_LIT, "\"" ++ String.mk acc.reverse, ⟨fn, startLine, startCol⟩⟩,
             [], line, col + 1,
             [mkError "Unterminated escape in string literal" (some ⟨fn, line, col + 1⟩),
              mkError "Unterminated string literal" (some ⟨fn, startLine, startCol⟩)])
        | e :: rest2 =>
            -- the decoded escape (`escape_map.get(esc, "\\" + esc)`, reversed
            -- for the reversed accumulator), then the advance over `esc`
            scanString fn startLine startCol
              ((if e = 'n' then ['\n']
                else if e = 't' then ['\t']
                else if e = '\\' then ['\\']
                else if e = '"' then ['"']
                else [e, '\\']) ++ acc)
              rest2 (advLC e line (col + 1)).1 (advLC e line (col + 1)).2
      else if c = '\n' then
        (⟨.STRING_LIT, "\"" ++ String.mk acc.reverse, ⟨fn, startLine, startCol⟩⟩,
         rest, line + 1, 1,
         [mkError "Unterminated string literal (newline in string)"
            (some ⟨fn, startLine, startCol⟩)])
      else
        scanString fn startLine startCol (c :: acc) rest line (col + 1)

/-- The optional-exponent step of `Lexer._scan_number`, positioned right
after the fractional digits (column `col`): consume `[eE][+-]?digit+` when
present; a dangling `e`/`E` (no digit after the optional sign) is an error
diagnostic at the position reached, with the consumed characters kept.
Returns (consumed characters, rest, column, diagnostics). -/
def scanExponent (fn : String) (startLine : Nat) :
    List Char → Nat → List Char × List Char × Nat × List Diagnostic
  | [], col => ([], [], col, [])
  | e :: rest, col =>
      if e = 'e' || e = 'E' then
        match rest with
        | s :: rest2 =>
            if s = '+' || s = '-' then
              match rest2 with
              | d :: rest3 =>
                  if d.isDigit then
                    let (ds, r, c) := takeDigits (d :: rest3) (col + 2)
                    (e :: s :: ds, r, c, [])
                  else
                    ([e, s], d :: rest3, col + 2,
                     [mkError "Expected digits after exponent in float literal"
                        (some ⟨fn, startLine, col + 2⟩)])
              | [] =>
                  ([e, s], [], col + 2,
                   [mkError "Expected digits after exponent in float literal"
                      (some ⟨fn, startLine, col + 2⟩)])
            else if s.isDigit then
              let (ds, r, c) := takeDigits (s :: rest2) (col + 1)
              (e :: ds, r, c, [])
            else
              ([e], s :: rest2, col + 1,
               [mkError "Expected digits after exponent in float literal"
                  (some ⟨fn, startLine, col + 1⟩)])
        | [] =>
            ([e], [], col + 1,
             [mkError "Expected digits after exponent in float literal"
                (some ⟨fn, startLine, col + 1⟩)])
      else ([], e :: rest, col, [])

/-- `Lexer._scan_number`: the first digit `c0` was already consumed at
(startLine, startCol); the column after it is `col`.  A `.` starts the
fractional part only when the character after it is a digit (`0..T` stays an
integer); a float may carry an exponent (`scanExponent`). -/
def scanNumber (fn : String) (startLine startCol : Nat) (c0 : Char)
    (chars : List Char) (col : Nat) :
    Token × List Char × Nat × List Diagnostic :=
  let (intDigits, rest1, col1) := takeDigits chars col
  match rest1 with
  | '.' :: d :: rest2 =>
      if d.isDigit then
        let (fracDigits, rest3, col3) := takeDigits (d :: rest2) (col1 + 1)
        let (expChars, rest4, col4, dse) := scanExponent fn startLine rest3 col3
        (⟨.FLOAT_LIT, String.mk (c0 :: intDigits ++ '.' :: fracDigits ++ expChars),
          ⟨fn, startLine, startCol⟩⟩, rest4, col4, dse)
      else
        (⟨.INT_LIT, String.mk (c0 :: intDigits), ⟨fn, startLine, startCol⟩⟩,
         '.' :: d :: rest2, col1, [])
  | _ =>
      (⟨.INT_LIT, String.mk (c0 :: intDigits), ⟨fn, startLine, startCol⟩⟩,
       rest1, col1, [])

/-- `Lexer._scan_identifier_or_keyword`: first character `c0` already
consumed; scans the rest and classifies against the keyword table. -/
def scanIdent (fn : String) (startLine startCol : Nat) (c0 : Char)
    (chars : List Char) (col : Nat) : Token × List Char × Nat :=
  let (more, rest, col') := takeIdentChars chars col
  let lexeme := String.mk (c0 :: more)
  let kind := (KEYWORDS.lookup lexeme).getD .IDENT
  (⟨kind, lexeme, ⟨fn, startLine, startCol⟩⟩, rest, col')

/-- The main scanning loop of `Lexer.tokenize` (everything before the final
EOF append).  `lastNl` is `last_was_newline`; returns the tokens, the
diagnostics, and the final line/column for the EOF token.  `fuel` bounds the
number of loop iterations; it is unreachable when `fuel > chars.length`
(every iteration consumes at least one character). -/
def lexLoop (fn : String) : Nat → List Char → Nat → Nat → Bool →
    List Token × List Diagnostic × Nat × Nat
  | 0, _, line, col, _ => ([], [], line, col)
  | _ + 1, [], line, col, _ => ([], [], line, col)
  | fuel + 1, c :: rest, line, col, lastNl =>
      if c = ' ' || c = '\t' || c = '\r' then
        lexLoop fn fuel rest line (col + 1) lastNl
      else if c = '#' then
        let (rest', col') := skipComment (c :: rest) col
        lexLoop fn fuel rest' line col' lastNl
      else if c = '\n' then
        if lastNl then lexLoop fn fuel rest (line + 1) 1 lastNl
        else
          let (ts, ds, l2, c2) := lexLoop fn fuel rest (line + 1) 1 true
          (⟨.NEWLINE, "\\n", ⟨fn, line, col⟩⟩ :: ts, ds, l2, c2)
      else if c = '"' then
        let (tok, rest', line', col', dsc) := scanString fn line col [] rest line (col + 1)
        let (ts, ds, l2, c2) := lexLoop fn fuel rest' line' col' false
        (tok :: ts, dsc ++ ds, l2, c2)
      else if c.isDigit then
        let (tok, rest', col', dsc) := scanNumber fn line col c rest (col + 1)
        let (ts, ds, l2, c2) := lexLoop fn fuel rest' line col' false
        (tok :: ts, dsc ++ ds, l2, c2)
      else if c.isAlpha || c = '_' then
        let (tok, rest', col') := scanIdent fn line col c rest (col + 1)
        let (ts, ds, l2, c2) := lexLoop fn fuel rest' line col' false
        (tok :: ts, ds, l2, c2)
      else if c = '.' then
        -- ``self._peek() == "."``: at end of input `_peek` returns "" (here
        -- a null placeholder character), which is not a dot.
        if rest.headD '\x00' = '.' then
          let (ts, ds, l2, c2) := lexLoop fn fuel rest.tail line (col + 2) false
          (⟨.DOTDOT, "..", ⟨fn, line, col⟩⟩ :: ts, ds, l2, c2)
        else
          let (ts, ds, l2, c2) := lexLoop fn fuel rest line (col + 1) false
          (⟨.DOT, ".", ⟨fn, line, col⟩⟩ :: ts, ds, l2, c2)
      else
        match SINGLE_CHAR.lookup c with
        | some k =>
            let (ts, ds, l2, c2) := lexLoop fn fuel rest line (col + 1) false
            (⟨k, Char.toString c, ⟨fn, line, col⟩⟩ :: ts, ds, l2, c2)
        | none =>
            let (ts, ds, l2, c2) := lexLoop fn fuel rest line (col + 1) false
            (ts, mkError ("Unexpected character: " ++ pyCharRepr c) (some ⟨fn, line, col⟩) :: ds,
             l2, c2)

/-- `Lexer.tokenize` / the `Lexer(source, filename).tokenize()` call: scan the
whole source and append the single EOF token at the final position. -/
def tokenize (source : String) (fn : String) : List Token × List Diagnostic :=
  let (ts, ds, line, col) := lexLoop fn (source.length + 1) source.data 1 1 true
  (ts ++ [⟨.EOF, "", ⟨fn, line, col⟩⟩], ds)

/-! ## Expression and statement AST nodes (core/expressions.py, parser/ast_nodes.py)

`StringLiteral` and `ArrayLiteral` are `ExprNode` subclasses in the source,
so they are constructors of the one expression type here.  A `FloatLiteral`
carries `float(lexeme)` in the source; no observed behaviour depends on the
numeric value (the constant evaluator rejects every float), so the embedding
keeps the lexeme it was built from. -/

inductive ExprNode where
  | intLit (value : Int) (location : Option SourceLocation)
  | floatLit (lexeme : String) (location : Option SourceLocation)
  | ident (name : String) (location : Option SourceLocation)
  | binaryOp (op : String) (left right : ExprNode) (location : Option SourceLocation)
  | unaryOp (op : String) (operand : ExprNode) (location : Option SourceLocation)
  | parenExpr (expr : ExprNode) (location : Option SourceLocation)
  | stringLit (value : String) (location : Option SourceLocation)
  | arrayLit (elements : List ExprNode) (location : Option SourceLocation)

inductive QuantDescNode where
  | perTensor (scale zero_point : ExprNode) (location : Option SourceLocation)
  | perChannel (axis : ExprNode) (scales zero_points : List ExprNode)
      (location : Option SourceLocation)
  | perGroup (axis group_size : ExprNode) (scales zero_points : List ExprNode)
      (location : Option SourceLocation)

structure TypeAttrsNode where
  elem : String
  shape : List ExprNode
  layout : Option String
  strides : Option (List ExprNode)
  quant : Option QuantDescNode
  location : Option SourceLocation

structure DecoratorNode where
  name : String
  args : Option (List ExprNode)
  location : Option SourceLocation

inductive StmtNode where
  | constDecl (name : String) (value : ExprNode) (location : Option SourceLocation)
  | bufferDecl (name : String) (mem_level : String) (size align l1_index : Option ExprNode)
      (decorators : List DecoratorNode) (location : Option SourceLocation)
  | regionDecl (name buffer_name : String) (offset extent : ExprNode)
      (type_attrs : Option TypeAttrsNode) (decorators : List DecoratorNode)
      (location : Option SourceLocation)
  | letDecl (name : String) (value : ExprNode) (location : Option SourceLocation)

structure ProgramNode where
  device_ref : Option String
  name : Option String
  statements : List StmtNode
  location : Option SourceLocation

/-! ## CPython integer true division (the `int(left / right)` in expressions.py)

CPython's `int / int` produces the IEEE-754 binary64 value nearest the exact
rational quotient (ties to even, subnormals below `2^-1022`, `OverflowError`
from `2^1024` up), and `int(...)` truncates that value toward zero. -/

/-- Floor of log2 on positive naturals, by structural recursion on a fuel
that always suffices (`n` halves each step). -/
def natLog2Aux : Nat → Nat → Nat
  | 0, _ => 0
  | fuel + 1, n => if n ≤ 1 then 0 else natLog2Aux fuel (n / 2) + 1

def natLog2 (n : Nat) : Nat := natLog2Aux n n

/-- Decides `2^e ≤ a/b` for positive naturals `a, b` and an integer `e`. -/
def pow2LeRat (a b : Nat) (e : Int) : Bool :=
  if 0 ≤ e then b * 2 ^ e.toNat ≤ a else b ≤ a * 2 ^ (-e).toNat

/-- The magnitude part of CPython's `a / b` for positive naturals followed by
`int(...)`: round the rational `a/b` to the nearest binary64 (ties to even),
then truncate toward zero.  `none` models `OverflowError`. -/
def pyDivRoundPos (a b : Nat) : Option Nat :=
  let d : Int := (natLog2 a : Int) - (natLog2 b : Int)
  -- the unique e with 2^e ≤ a/b < 2^(e+1) is d or d-1
  let e : Int := if pow2LeRat a b d then d else d - 1
  -- the rounding quantum of the nearest double is 2^p
  let p : Int := max (e - 52) (-1074)
  let (bigN, bigD) : Nat × Nat :=
    if 0 ≤ p then (a, b * 2 ^ p.toNat) else (a * 2 ^ (-p).toNat, b)
  let q := bigN / bigD
  let rem := bigN % bigD
  let m := if bigD < 2 * rem then q + 1 else if 2 * rem < bigD then q else q + q % 2
  if 0 ≤ p then
    let v := m * 2 ^ p.toNat
    if 2 ^ 1024 ≤ v then none else some v
  else
    some (m / 2 ^ (-p).toNat)

/-- CPython `int(l / r)` for integers with `r ≠ 0`: `none` is `OverflowError`. -/
def pyIntTrueDiv (l r : Int) : Option Int :=
  if l = 0 then some 0
  else
    match pyDivRoundPos l.natAbs r.natAbs with
    | none => none
    | some m => some (if (0 ≤ l) = (0 ≤ r) then (m : Int) else -(m : Int))

/-! ## The constant expression evaluator (core/expressions.py) -/

/-- The failures that can escape `evaluate_const_expr`: the typed
`ConstEvalError` (message and location, as raised), or the `OverflowError`
CPython raises when `int / int` exceeds the float range. -/
inductive EvalError where
  | constEvalError (message : String) (location : Option SourceLocation)
  | overflowError
deriving DecidableEq, Repr

/-- Lookup in the `env: dict[str, int]` (keys unique, so first hit is the
dict hit). -/
def envLookup : List (String × Int) → String → Option Int
  | [], _ => none
  | (k, v) :: rest, name => if k = name then some v else envLookup rest name

/-- `evaluate_const_expr(expr, env)` of core/expressions.py. -/
def evaluate_const_expr : ExprNode → List (String × Int) → Except EvalError Int
  | .intLit v _, _ => .ok v
  | .ident name loc, env =>
      match envLookup env name with
      | none => .error (.constEvalError ("Forward reference to undeclared constant " ++ name) loc)
      | some v => .ok v
  | .binaryOp op l r loc, env =>
      match evaluate_const_expr l env with
      | .error e => .error e
      | .ok left =>
        match evaluate_const_expr r env with
        | .error e => .error e
        | .ok right =>
            if op = "+" then .ok (left + right)
            else if op = "-" then .ok (left - right)
            else if op = "*" then .ok (left * right)
            else if op = "/" then
              if right = 0 then
                .error (.constEvalError "Division by zero in constant expression" loc)
              else
                -- `int(left / right)`: float division, then truncation
                match pyIntTrueDiv left right with
                | some q => .ok q
                | none => .error .overflowError
            else if op = "mod" then
              if right = 0 then
                .error (.constEvalError "Division by zero in constant expression" loc)
              else .ok (Int.fmod left right)   -- Python `%`: floored remainder
            else .error (.constEvalError ("Unknown operator: " ++ pyStrRepr op) loc)
  | .unaryOp op operand loc, env =>
      match evaluate_const_expr operand env with
      | .error e => .error e
      | .ok v =>
          if op = "-" then .ok (-v)
          else .error (.constEvalError ("Unknown unary operator: " ++ pyStrRepr op) loc)
  | .parenExpr inner _, env => evaluate_const_expr inner env
  | .floatLit _ loc, _ =>
      .error (.constEvalError "Float literals not allowed in constant expressions" loc)
  | .stringLit _ loc, _ =>
      .error (.constEvalError "Cannot evaluate expression type: StringLiteral" loc)
  | .arrayLit _ loc, _ =>
      .error (.constEvalError "Cannot evaluate expression type: ArrayLiteral" loc)

/-! ## The parser (parser/parser.py, parser/errors.py)

A parser computation reads the token list from the front (the suffix of the
token stream from the current position) and either returns a value or an
exception; in both cases it carries the remaining tokens and the diagnostics
accumulated so far.  Two exception classes reach the parser's error channel:
the local parse-error signal `ParseError(message, location)` of errors.py,
which the statement dispatch loop catches, and Python's builtin `ValueError`
raised by `float(tok.lexeme)` in `_parse_primary` on a malformed float
lexeme, which no handler in parser.py catches. -/

inductive ExcKind where
  | parseError
  | valueError
deriving DecidableEq, Repr

structure ParseErr where
  kind : ExcKind
  message : String
  location : Option SourceLocation
deriving DecidableEq, Repr

inductive PRes (α : Type) where
  | ok (val : α) (rest : List Token) (diags : List Diagnostic)
  | err (e : ParseErr) (rest : List Token) (diags : List Diagnostic)

def PRes.rest {α : Type} : PRes α → List Token
  | .ok _ r _ => r
  | .err _ r _ => r

def PRes.diags {α : Type} : PRes α → List Diagnostic
  | .ok _ _ d => d
  | .err _ _ d => d

def PRes.isOk {α : Type} : PRes α → Bool
  | .ok _ _ _ => true
  | .err _ _ _ => false

def PRes.isErr {α : Type} : PRes α → Bool := fun r => !r.isOk

/-- Sequencing with `ParseError` propagation (Python's straight-line
statements inside one `try` region). -/
def PRes.bind {α β : Type} : PRes α → (α → List Token → List Diagnostic → PRes β) → PRes β
  | .ok v rest d, f => f v rest d
  | .err e rest d, _ => .err e rest d

/-- The token `Parser._peek` yields when the list is empty.  Python indexes
`tokens[self._pos]`; for every token list `tokenize` produces, the final EOF
token is never consumed, so this fallback is unreachable there. -/
def fallbackTok : Token := ⟨.EOF, "", ⟨"", 0, 0⟩⟩

def peekTk (toks : List Token) : Token := toks.headD fallbackTok

/-- `Parser._at_end`. -/
def atEndTk (toks : List Token) : Bool := (peekTk toks).kind == .EOF

/-- The position effect of `Parser._advance`: the EOF token is never
consumed. -/
def advRest : List Token → List Token
  | [] => []
  | t :: rest => if t.kind = .EOF then t :: rest else rest

/-- `Parser._skip_newlines`. -/
def skipNewlinesTk : List Token → List Token
  | [] => []
  | t :: rest => if t.kind = .NEWLINE then skipNewlinesTk rest else t :: rest

/-- `Parser._skip_to_newline` (error recovery: stop at NEWLINE or EOF). -/
def skipToNewlineTk : List Token → List Token
  | [] => []
  | t :: rest =>
      if t.kind = .NEWLINE || t.kind = .EOF then t :: rest else skipToNewlineTk rest

/-- `Parser._peek_past_newlines`. -/
def peekPastNewlinesTk : List Token → TokenKind
  | [] => .EOF
  | t :: rest => if t.kind = .NEWLINE then peekPastNewlinesTk rest else t.kind

/-- `Parser._expect(kind, message)`: consume the token or record the
diagnostic and raise the parse-error signal. -/
def expectTk (kind : TokenKind) (msg : String) (toks : List Token)
    (d : List Diagnostic) : PRes Token :=
  let tok := peekTk toks
  if tok.kind = kind then .ok tok (advRest toks) d
  else
    .err ⟨.parseError, msg, some tok.location⟩ toks
      (d ++ [mkError (msg ++ " (got " ++ kindName tok.kind ++ " " ++ pyStrRepr tok.lexeme ++ ")")
        (some tok.location)])

/-- `Parser._expect_ident(name)`: an IDENT token with a specific lexeme. -/
def expectIdentNamed (name : String) (toks : List Token) (d : List Diagnostic) : PRes Token :=
  let tok := peekTk toks
  if tok.kind = .IDENT ∧ tok.lexeme = name then .ok tok (advRest toks) d
  else
    .err ⟨.parseError, "Expected '" ++ name ++ "'", some tok.location⟩ toks
      (d ++ [mkError ("Expected '" ++ name ++ "' (got " ++ kindName tok.kind ++ " "
        ++ pyStrRepr tok.lexeme ++ ")") (some tok.location)])

/-- The parse-error signal a fueled parser emits when its fuel runs out.  The
fuel passed by the entry points below strictly exceeds the recursion depth,
so this is unreachable from them; it is treated like any other parse error
(caught at the statement dispatch loop). -/
def fuelErr {α : Type} (toks : List Token) (d : List Diagnostic) : PRes α :=
  .err ⟨.parseError, "recursion fuel exhausted", none⟩ toks d

/-- Python `int(...)` on the digit-run lexeme of an INT_LIT token. -/
def digitsToNat (s : String) : Nat :=
  s.data.foldl (fun a c => a * 10 + (c.toNat - 48)) 0

/-- Python `lexeme.strip('"')`: remove every leading and trailing `"`. -/
def stripQuotes (s : String) : String :=
  String.mk (((s.data.dropWhile (· = '"')).reverse.dropWhile (· = '"')).reverse)

/-- The leading ASCII digit run of a character list and what follows it. -/
def digitsSpan (cs : List Char) : List Char × List Char :=
  (cs.takeWhile Char.isDigit, cs.dropWhile Char.isDigit)

/-- Whether CPython `float(s)` accepts the string `s`: the numeric literal
grammar `[sign] (digits [. digits?] | . digits) [(e|E) [sign] digits]`.  The
builtin additionally accepts surrounding whitespace, digit-group underscores
and inf/nan spellings; none of those characters occur in a lexeme
`_scan_number` can emit (digits, `.`, `e`, `E`, `+`, `-`), so the model is
exact on every token the lexer produces.  In particular a FLOAT_LIT lexeme
with a dangling exponent such as `1.5e` or `1.5e+` is rejected, and
`float(...)` on it raises `ValueError`. -/
def pyFloatAccepts (s : String) : Bool :=
  let cs := match s.data with
    | c :: rest => if c = '+' ∨ c = '-' then rest else c :: rest
    | [] => []
  let (ip, cs1) := digitsSpan cs
  let (fp, cs2) := match cs1 with
    | '.' :: rest => digitsSpan rest
    | _ => ([], cs1)
  let hasDot := cs1.headD '\x00' = '.'
  let mantissaOk := !ip.isEmpty || (hasDot && !fp.isEmpty)
  match cs2 with
  | [] => mantissaOk
  | e :: rest =>
      if e = 'e' ∨ e = 'E' then
        let rest2 := match rest with
          | c :: r => if c = '+' ∨ c = '-' then r else c :: r
          | [] => []
        let (ed, rest3) := digitsSpan rest2
        mantissaOk && !ed.isEmpty && rest3.isEmpty
      else false

/-! ### Expression parsing (precedence climbing): `Parser.parse_expression`,
`_parse_additive`, `_parse_multiplicative`, `_parse_unary`, `_parse_primary`.
The `while` loops of the two binary levels are the `...Loop` functions. -/

mutual

def parseExpression : Nat → List Token → List Diagnostic → PRes ExprNode
  | 0, toks, d => fuelErr toks d
  | fuel + 1, toks, d => parseAdditive fuel toks d

def parseAdditive : Nat → List Token → List Diagnostic → PRes ExprNode
  | 0, toks, d => fuelErr toks d
  | fuel + 1, toks, d =>
      (parseMultiplicative fuel toks d).bind fun left rest d =>
        additiveLoop fuel left rest d

def additiveLoop : Nat → ExprNode → List Token → List Diagnostic → PRes ExprNode
  | 0, _, toks, d => fuelErr toks d
  | fuel + 1, left, toks, d =>
      let tok := peekTk toks
      if tok.kind = .PLUS ∨ tok.kind = .MINUS then
        (parseMultiplicative fuel (advRest toks) d).bind fun right rest d =>
          additiveLoop fuel (.binaryOp tok.lexeme left right (some tok.location)) rest d
      else .ok left toks d

def parseMultiplicative : Nat → List Token → List Diagnostic → PRes ExprNode
  | 0, toks, d => fuelErr toks d
  | fuel + 1, toks, d =>
      (parseUnary fuel toks d).bind fun left rest d =>
        multiplicativeLoop fuel left rest d

def multiplicativeLoop : Nat → ExprNode → List Token → List Diagnostic → PRes ExprNode
  | 0, _, toks, d => fuelErr toks d
  | fuel + 1, left, toks, d =>
      let tok := peekTk toks
      if tok.kind = .STAR ∨ tok.kind = .SLASH ∨ tok.kind = .MOD then
        (parseUnary fuel (advRest toks) d).bind fun right rest d =>
          multiplicativeLoop fuel (.binaryOp tok.lexeme left right (some tok.location)) rest d
      else .ok left toks d

def parseUnary : Nat → List Token → List Diagnostic → PRes ExprNode
  | 0, toks, d => fuelErr toks d
  | fuel + 1, toks, d =>
      let tok := peekTk toks
      if tok.kind = .MINUS then
        (parseUnary fuel (advRest toks) d).bind fun operand rest d =>
          .ok (.unaryOp "-" operand (some tok.location)) rest d
      else parsePrimary fuel toks d

def parsePrimary : Nat → List Token → List Diagnostic → PRes ExprNode
  | 0, toks, d => fuelErr toks d
  | fuel + 1, toks, d =>
      let tok := peekTk toks
      if tok.kind = .INT_LIT then
        .ok (.intLit (digitsToNat tok.lexeme) (some tok.location)) (advRest toks) d
      else if tok.kind = .FLOAT_LIT then
        -- `float(tok.lexeme)` raises ValueError when the lexeme is malformed
        -- (the token was already consumed by `self._advance()`).
        if pyFloatAccepts tok.lexeme then
          .ok (.floatLit tok.lexeme (some tok.location)) (advRest toks) d
        else
          .err ⟨.valueError, "could not convert string to float: " ++ pyStrRepr tok.lexeme,
            none⟩ (advRest toks) d
      else if tok.kind = .IDENT then
        .ok (.ident tok.lexeme (some tok.location)) (advRest toks) d
      else if tok.kind = .LPAREN then
        (parseExpression fuel (advRest toks) d).bind fun e rest d =>
          (expectTk .RPAREN "Expected ')' after expression" rest d).bind fun _ rest d =>
            .ok (.parenExpr e (some tok.location)) rest d
      else
        .err ⟨.parseError, "Expected expression", some tok.location⟩ toks
          (d ++ [mkError ("Expected expression, got " ++ kindName tok.kind ++ " "
            ++ pyStrRepr tok.lexeme) (some tok.location)])

end

/-! ### Values and array literals: `Parser._parse_value`,
`_parse_array_literal`. -/

mutual

def parseValue : Nat → List Token → List Diagnostic → PRes ExprNode
  | 0, toks, d => fuelErr toks d
  | fuel + 1, toks, d =>
      let tok := peekTk toks
      if tok.kind = .STRING_LIT then
        .ok (.stringLit (stripQuotes tok.lexeme) (some tok.location)) (advRest toks) d
      else if tok.kind = .LBRACKET then parseArrayLiteral fuel toks d
      else parseExpression fuel toks d

def parseArrayLiteral : Nat → List Token → List Diagnostic → PRes ExprNode
  | 0, toks, d => fuelErr toks d
  | fuel + 1, toks, d =>
      (expectTk .LBRACKET "Expected '['" toks d).bind fun tok rest d =>
        if (peekTk rest).kind = .RBRACKET then
          (expectTk .RBRACKET "Expected ']'" rest d).bind fun _ rest d =>
            .ok (.arrayLit [] (some tok.location)) rest d
        else
          (parseValue fuel rest d).bind fun v rest d =>
            (arrayLitLoop fuel [v] rest d).bind fun elems rest d =>
              (expectTk .RBRACKET "Expected ']'" rest d).bind fun _ rest d =>
                .ok (.arrayLit elems (some tok.location)) rest d

def arrayLitLoop : Nat → List ExprNode → List Token → List Diagnostic → PRes (List ExprNode)
  | 0, _, toks, d => fuelErr toks d
  | fuel + 1, elems, toks, d =>
      if (peekTk toks).kind = .COMMA then
        let rest := advRest toks
        if (peekTk rest).kind = .RBRACKET then .ok elems rest d
        else
          (parseValue fuel rest d).bind fun v rest d =>
            arrayLitLoop fuel (elems ++ [v]) rest d
      else .ok elems toks d

end

/-! ### Bracketed lists: `Parser._parse_expr_list`, `_parse_value_list`. -/

def exprListLoop : Nat → List ExprNode → List Token → List Diagnostic → PRes (List ExprNode)
  | 0, _, toks, d => fuelErr toks d
  | fuel + 1, exprs, toks, d =>
      if (peekTk toks).kind = .COMMA then
        let rest := advRest toks
        if (peekTk rest).kind = .RBRACKET then .ok exprs rest d
        else
          (parseExpression fuel rest d).bind fun e rest d =>
            exprListLoop fuel (exprs ++ [e]) rest d
      else .ok exprs toks d

def parseExprList (fuel : Nat) (toks : List Token) (d : List Diagnostic) :
    PRes (List ExprNode) :=
  (expectTk .LBRACKET "Expected '['" toks d).bind fun _ rest d =>
    if (peekTk rest).kind = .RBRACKET then
      (expectTk .RBRACKET "Expected ']'" rest d).bind fun _ rest d => .ok [] rest d
    else
      (parseExpression fuel rest d).bind fun e rest d =>
        (exprListLoop fuel [e] rest d).bind fun exprs rest d =>
          (expectTk .RBRACKET "Expected ']'" rest d).bind fun _ rest d =>
            .ok exprs rest d

def valueListLoop : Nat → List ExprNode → List Token → List Diagnostic → PRes (List ExprNode)
  | 0, _, toks, d => fuelErr toks d
  | fuel + 1, values, toks, d =>
      if (peekTk toks).kind = .COMMA then
        let rest := advRest toks
        if (peekTk rest).kind = .RBRACKET then .ok values rest d
        else
          (parseValue fuel rest d).bind fun v rest d =>
            valueListLoop fuel (values ++ [v]) rest d
      else .ok values toks d

def parseValueList (fuel : Nat) (toks : List Token) (d : List Diagnostic) :
    PRes (List ExprNode) :=
  (expectTk .LBRACKET "Expected '['" toks d).bind fun _ rest d =>
    if (peekTk rest).kind = .RBRACKET then
      (expectTk .RBRACKET "Expected ']'" rest d).bind fun _ rest d => .ok [] rest d
    else
      (parseValue fuel rest d).bind fun v rest d =>
        (valueListLoop fuel [v] rest d).bind fun values rest d =>
          (expectTk .RBRACKET "Expected ']'" rest d).bind fun _ rest d =>
            .ok values rest d

/-! ### Quantization descriptors: `Parser._parse_quant_desc` and the three
`per_*` productions. -/

def parsePerTensorQuant (fuel : Nat) (loc : SourceLocation) (toks : List Token)
    (d : List Diagnostic) : PRes QuantDescNode :=
  (expectIdentNamed "scale" toks d).bind fun _ rest d =>
  (expectTk .EQUALS "Expected '=' after 'scale'" rest d).bind fun _ rest d =>
  (parseValue fuel rest d).bind fun scale rest d =>
  (expectTk .COMMA "Expected ','" rest d).bind fun _ rest d =>
  (expectIdentNamed "zero_point" rest d).bind fun _ rest d =>
  (expectTk .EQUALS "Expected '=' after 'zero_point'" rest d).bind fun _ rest d =>
  (parseValue fuel rest d).bind fun zero_point rest d =>
  .ok (.perTensor scale zero_point (some loc)) rest d

def parsePerChannelQuant (fuel : Nat) (loc : SourceLocation) (toks : List Token)
    (d : List Diagnostic) : PRes QuantDescNode :=
  (expectIdentNamed "axis" toks d).bind fun _ rest d =>
  (expectTk .EQUALS "Expected '=' after 'axis'" rest d).bind fun _ rest d =>
  (parseExpression fuel rest d).bind fun axis rest d =>
  (expectTk .COMMA "Expected ','" rest d).bind fun _ rest d =>
  (expectIdentNamed "scales" rest d).bind fun _ rest d =>
  (expectTk .EQUALS "Expected '=' after 'scales'" rest d).bind fun _ rest d =>
  (parseValueList fuel rest d).bind fun scales rest d =>
  (expectTk .COMMA "Expected ','" rest d).bind fun _ rest d =>
  (expectIdentNamed "zero_points" rest d).bind fun _ rest d =>
  (expectTk .EQUALS "Expected '=' after 'zero_points'" rest d).bind fun _ rest d =>
  (parseValueList fuel rest d).bind fun zero_points rest d =>
  .ok (.perChannel axis scales zero_points (some loc)) rest d

def parsePerGroupQuant (fuel : Nat) (loc : SourceLocation) (toks : List Token)
    (d : List Diagnostic) : PRes QuantDescNode :=
  (expectIdentNamed "axis" toks d).bind fun _ rest d =>
  (expectTk .EQUALS "Expected '=' after 'axis'" rest d).bind fun _ rest d =>
  (parseExpression fuel rest d).bind fun axis rest d =>
  (expectTk .COMMA "Expected ','" rest d).bind fun _ rest d =>
  (expectIdentNamed "group_size" rest d).bind fun _ rest d =>
  (expectTk .EQUALS "Expected '=' after 'group_size'" rest d).bind fun _ rest d =>
  (parseExpression fuel rest d).bind fun group_size rest d =>
  (expectTk .COMMA "Expected ','" rest d).bind fun _ rest d =>
  (expectIdentNamed "scales" rest d).bind fun _ rest d =>
  (expectTk .EQUALS "Expected '=' after 'scales'" rest d).bind fun _ rest d =>
  (parseValueList fuel rest d).bind fun scales rest d =>
  (expectTk .COMMA "Expected ','" rest d).bind fun _ rest d =>
  (expectIdentNamed "zero_points" rest d).bind fun _ rest d =>
  (expectTk .EQUALS "Expected '=' after 'zero_points'" rest d).bind fun _ rest d =>
  (parseValueList fuel rest d).bind fun zero_points rest d =>
  .ok (.perGroup axis group_size scales zero_points (some loc)) rest d

def parseQuantDesc (fuel : Nat) (toks : List Token) (d : List Diagnostic) :
    PRes QuantDescNode :=
  let tok := peekTk toks
  if tok.kind ≠ .IDENT then
    .err ⟨.parseError, "Expected quant descriptor kind", some tok.location⟩ toks
      (d ++ [mkError ("Expected quant descriptor kind, got " ++ kindName tok.kind)
        (some tok.location)])
  else
    let qkind := tok.lexeme
    (expectTk .LPAREN ("Expected '(' after '" ++ qkind ++ "'") (advRest toks) d).bind
      fun _ rest d =>
    (if qkind = "per_tensor" then parsePerTensorQuant fuel tok.location rest d
     else if qkind = "per_channel" then parsePerChannelQuant fuel tok.location rest d
     else if qkind = "per_group" then parsePerGroupQuant fuel tok.location rest d
     else
       .err ⟨.parseError, "Unknown quant descriptor: " ++ pyStrRepr qkind, some tok.location⟩ rest
         (d ++ [mkError ("Unknown quant descriptor: " ++ pyStrRepr qkind)
           (some tok.location)])).bind fun result rest d =>
    (expectTk .RPAREN ("Expected ')' after " ++ qkind ++ " descriptor") rest d).bind
      fun _ rest d =>
    .ok result rest d

/-! ### Type attributes: `Parser._parse_type_attrs`, `_parse_elem_type`,
`_try_parse_type_attrs`. -/

/-- The `_ELEM_TYPE_TOKENS` set of parser.py. -/
def ELEM_TYPE_TOKENS : List TokenKind :=
  [.I4, .I8, .I16, .I32, .U8, .U16, .U32, .F16, .BF16, .TF32, .F32, .F64, .BOOL_TYPE]

def parseElemType (toks : List Token) (d : List Diagnostic) : PRes String :=
  let tok := peekTk toks
  if tok.kind ∈ ELEM_TYPE_TOKENS then .ok tok.lexeme (advRest toks) d
  else
    .err ⟨.parseError, "Expected element type", some tok.location⟩ toks
      (d ++ [mkError ("Expected element type, got " ++ kindName tok.kind ++ " "
        ++ pyStrRepr tok.lexeme) (some tok.location)])

def parseTypeAttrs (fuel : Nat) (toks : List Token) (d : List Diagnostic) :
    PRes TypeAttrsNode :=
  let loc := (peekTk toks).location
  (expectTk .ELEM "Expected 'elem'" toks d).bind fun _ rest d =>
  (expectTk .EQUALS "Expected '=' after 'elem'" rest d).bind fun _ rest d =>
  (parseElemType rest d).bind fun elem rest d =>
  (expectTk .COMMA "Expected ',' after elem type" rest d).bind fun _ rest d =>
  (expectTk .SHAPE "Expected 'shape'" rest d).bind fun _ rest d =>
  (expectTk .EQUALS "Expected '=' after 'shape'" rest d).bind fun _ rest d =>
  (parseExprList fuel rest d).bind fun shape rest d =>
  -- ``if self._match(COMMA): layout= ... or strides= ...``
  (if (peekTk rest).kind = .COMMA then
    let rest := advRest rest
    if (peekTk rest).kind = .LAYOUT then
      (expectTk .EQUALS "Expected '=' after 'layout'" (advRest rest) d).bind fun _ rest d =>
      (expectTk .IDENT "Expected layout name" rest d).bind fun layout_tok rest d =>
      .ok (some layout_tok.lexeme, (none : Option (List ExprNode))) rest d
    else if (peekTk rest).kind = .STRIDES then
      (expectTk .EQUALS "Expected '=' after 'strides'" (advRest rest) d).bind fun _ rest d =>
      (parseExprList fuel rest d).bind fun strides rest d =>
      .ok ((none : Option String), some strides) rest d
    else .ok ((none : Option String), (none : Option (List ExprNode))) rest d
  else .ok ((none : Option String), (none : Option (List ExprNode))) rest d).bind
    fun layoutStrides rest d =>
  -- ``if self._match(COMMA): quant= ...``
  (if (peekTk rest).kind = .COMMA then
    let rest := advRest rest
    if (peekTk rest).kind = .QUANT then
      (expectTk .EQUALS "Expected '=' after 'quant'" (advRest rest) d).bind fun _ rest d =>
      (parseQuantDesc fuel rest d).bind fun q rest d =>
      .ok (some q) rest d
    else .ok (none : Option QuantDescNode) rest d
  else .ok (none : Option QuantDescNode) rest d).bind fun quant rest d =>
  .ok ⟨elem, shape, layoutStrides.1, layoutStrides.2, quant, some loc⟩ rest d

def tryParseTypeAttrs (fuel : Nat) (toks : List Token) (d : List Diagnostic) :
    PRes (Option TypeAttrsNode) :=
  if peekPastNewlinesTk toks = .ELEM then
    (parseTypeAttrs fuel (skipNewlinesTk toks) d).bind fun ta rest d => .ok (some ta) rest d
  else .ok none toks d

/-! ### Decorators: `Parser._parse_decorators`, `_parse_decorator`,
`_parse_deco_args`. -/

/-- The unit names special-cased for `@resource(UNIT[i])` in
`_parse_deco_args`. -/
def RESOURCE_UNITS : List String := ["NMU", "CSTL", "DMA", "VPU", "SEQ", "sDMA", "WDM"]

def decoArgsLoop : Nat → List ExprNode → List Token → List Diagnostic → PRes (List ExprNode)
  | 0, _, toks, d => fuelErr toks d
  | fuel + 1, values, toks, d =>
      if (peekTk toks).kind = .COMMA then
        let rest := advRest toks
        if (peekTk rest).kind = .RPAREN then .ok values rest d
        else
          (parseValue fuel rest d).bind fun v rest d =>
            decoArgsLoop fuel (values ++ [v]) rest d
      else .ok values toks d

def parseDecoArgs (fuel : Nat) (toks : List Token) (d : List Diagnostic) :
    PRes (List ExprNode) :=
  let tok := peekTk toks
  if tok.kind = .IDENT ∧ tok.lexeme ∈ RESOURCE_UNITS then
    let rest := advRest toks
    if (peekTk rest).kind = .LBRACKET then
      (parseExpression fuel (advRest rest) d).bind fun idx rest d =>
      (expectTk .RBRACKET "Expected ']' after resource index" rest d).bind fun _ rest d =>
      .ok [.ident tok.lexeme (some tok.location), idx] rest d
    else .ok [.ident tok.lexeme (some tok.location)] rest d
  else
    if (peekTk toks).kind = .RPAREN then .ok [] toks d
    else
      (parseValue fuel toks d).bind fun v rest d =>
        decoArgsLoop fuel [v] rest d

def parseDecorator (fuel : Nat) (toks : List Token) (d : List Diagnostic) :
    PRes DecoratorNode :=
  (expectTk .AT "Expected '@'" toks d).bind fun at_tok rest d =>
  (expectTk .IDENT "Expected decorator name after '@'" rest d).bind fun name_tok rest d =>
  if (peekTk rest).kind = .LPAREN then
    (parseDecoArgs fuel (advRest rest) d).bind fun args rest d =>
    (expectTk .RPAREN "Expected ')' after decorator args" rest d).bind fun _ rest d =>
    .ok ⟨name_tok.lexeme, some args, some at_tok.location⟩ rest d
  else .ok ⟨name_tok.lexeme, none, some at_tok.location⟩ rest d

def parseDecoratorsLoop : Nat → List DecoratorNode → List Token → List Diagnostic →
    PRes (List DecoratorNode)
  | 0, _, toks, d => fuelErr toks d
  | fuel + 1, decos, toks, d =>
      if peekPastNewlinesTk toks = .AT then
        (parseDecorator fuel (skipNewlinesTk toks) d).bind fun deco rest d =>
          parseDecoratorsLoop fuel (decos ++ [deco]) rest d
      else .ok decos toks d

/-! ### Declarations: `Parser.parse_const_decl`, `parse_buffer_decl` (with
`_parse_mem_level`, `_parse_buffer_props`), `parse_let_decl` (with
`_parse_region_body`). -/

def parseConstDecl (fuel : Nat) (toks : List Token) (d : List Diagnostic) : PRes StmtNode :=
  (expectTk .CONST "Expected 'const'" toks d).bind fun const_tok rest d =>
  (expectTk .IDENT "Expected identifier after 'const'" rest d).bind fun name_tok rest d =>
  (expectTk .EQUALS "Expected '=' after const name" rest d).bind fun _ rest d =>
  (parseExpression fuel rest d).bind fun value rest d =>
  .ok (.constDecl name_tok.lexeme value (some const_tok.location)) rest d

def parseMemLevel (fuel : Nat) (toks : List Token) (d : List Diagnostic) :
    PRes (String × Option ExprNode) :=
  let tok := peekTk toks
  if tok.kind = .DDR then .ok ("DDR", none) (advRest toks) d
  else if tok.kind = .L2 then .ok ("L2", none) (advRest toks) d
  else if tok.kind = .L1 then
    let rest := advRest toks
    if (peekTk rest).kind = .LBRACKET then
      (parseExpression fuel (advRest rest) d).bind fun idx rest d =>
      (expectTk .RBRACKET "Expected ']' after L1 index" rest d).bind fun _ rest d =>
      .ok ("L1", some idx) rest d
    else .ok ("L1", none) rest d
  else
    .err ⟨.parseError, "Expected memory level", some tok.location⟩ toks
      (d ++ [mkError ("Expected memory level (DDR, L2, L1), got " ++ kindName tok.kind)
        (some tok.location)])

def bufferPropsLoop : Nat → Option ExprNode → Option ExprNode → List Token →
    List Diagnostic → PRes (Option ExprNode × Option ExprNode)
  | 0, _, _, toks, d => fuelErr toks d
  | fuel + 1, size, align, toks, d =>
      let tok := peekTk toks
      if tok.kind = .RPAREN ∨ tok.kind = .EOF then .ok (size, align) toks d
      else if tok.kind = .SIZE then
        (expectTk .EQUALS "Expected '=' after 'size'" (advRest toks) d).bind fun _ rest d =>
        (parseExpression fuel rest d).bind fun v rest d =>
        -- optional comma between props (``self._match(COMMA)``)
        bufferPropsLoop fuel (some v) align
          (if (peekTk rest).kind = .COMMA then advRest rest else rest) d
      else if tok.kind = .ALIGN then
        (expectTk .EQUALS "Expected '=' after 'align'" (advRest toks) d).bind fun _ rest d =>
        (parseExpression fuel rest d).bind fun v rest d =>
        bufferPropsLoop fuel size (some v)
          (if (peekTk rest).kind = .COMMA then advRest rest else rest) d
      else .ok (size, align) toks d

def parseBufferDecl (fuel : Nat) (toks : List Token) (d : List Diagnostic) : PRes StmtNode :=
  (expectTk .BUFFER "Expected 'buffer'" toks d).bind fun buf_tok rest d =>
  (expectTk .IDENT "Expected buffer name" rest d).bind fun name_tok rest d =>
  (expectTk .COLON "Expected ':' after buffer name" rest d).bind fun _ rest d =>
  (parseMemLevel fuel rest d).bind fun memLevel rest d =>
  (expectTk .LPAREN "Expected '(' after memory level" rest d).bind fun _ rest d =>
  (bufferPropsLoop fuel none none rest d).bind fun sizeAlign rest d =>
  (expectTk .RPAREN "Expected ')' after buffer properties" rest d).bind fun _ rest d =>
  (parseDecoratorsLoop fuel [] rest d).bind fun decos rest d =>
  .ok (.bufferDecl name_tok.lexeme memLevel.1 sizeAlign.1 sizeAlign.2 memLevel.2 decos
    (some buf_tok.location)) rest d

def parseRegionBody (fuel : Nat) (name : String) (loc : Option SourceLocation)
    (toks : List Token) (d : List Diagnostic) : PRes StmtNode :=
  (expectTk .REGION "Expected 'region'" toks d).bind fun _ rest d =>
  (expectTk .LPAREN "Expected '(' after 'region'" rest d).bind fun _ rest d =>
  (expectTk .IDENT "Expected buffer name in region" rest d).bind fun buf_tok rest d =>
  (expectTk .COMMA "Expected ',' after buffer name" rest d).bind fun _ rest d =>
  (parseExpression fuel rest d).bind fun offset rest d =>
  (expectTk .COMMA "Expected ',' after offset" rest d).bind fun _ rest d =>
  (parseExpression fuel rest d).bind fun extent rest d =>
  (expectTk .RPAREN "Expected ')' after region extent" rest d).bind fun _ rest d =>
  (tryParseTypeAttrs fuel rest d).bind fun type_attrs rest d =>
  (parseDecoratorsLoop fuel [] rest d).bind fun decos rest d =>
  .ok (.regionDecl name buf_tok.lexeme offset extent type_attrs decos loc) rest d

def parseLetDecl (fuel : Nat) (toks : List Token) (d : List Diagnostic) : PRes StmtNode :=
  (expectTk .LET "Expected 'let'" toks d).bind fun let_tok rest d =>
  (expectTk .IDENT "Expected identifier after 'let'" rest d).bind fun name_tok rest d =>
  (expectTk .EQUALS "Expected '=' after let name" rest d).bind fun _ rest d =>
  if (peekTk rest).kind = .REGION then
    parseRegionBody fuel name_tok.lexeme (some let_tok.location) rest d
  else
    (parseValue fuel rest d).bind fun value rest d =>
    .ok (.letDecl name_tok.lexeme value (some let_tok.location)) rest d

/-! ### The statement dispatch loop: `Parser._parse_body`.

`loop_depth` is a Python `int`, so it is an `Int` here; the `endloop` branch
decrements it only when it is positive.  A failed statement production is
caught here — `except ParseError` — and recovery skips to the next
NEWLINE/EOF; a `ValueError` escaping a production (from `float(...)` in
`_parse_primary`) matches no handler and propagates, so the loop re-raises
every error whose kind is not `parseError`. -/

def parseBodyLoop : Nat → List Token → Int → List StmtNode → List Diagnostic →
    PRes (List StmtNode)
  | 0, toks, _, stmts, d => .ok stmts toks d
  | fuel + 1, toks, depth, stmts, d =>
      if atEndTk toks then .ok stmts toks d
      else
        let toks1 := skipNewlinesTk toks
        if atEndTk toks1 then .ok stmts toks1 d
        else
          let tok := peekTk toks1
          if tok.kind = .LOOP then
            parseBodyLoop fuel (skipToNewlineTk toks1) (depth + 1) stmts d
          else if tok.kind = .ENDLOOP then
            parseBodyLoop fuel (skipToNewlineTk toks1)
              (if depth > 0 then depth - 1 else depth) stmts d
          else if tok.kind = .CONST then
            if depth > 0 then
              parseBodyLoop fuel (skipToNewlineTk toks1) depth stmts
                (d ++ [mkError "Const declaration not permitted inside loop body"
                  (some tok.location)])
            else
              match parseConstDecl fuel toks1 d with
              | .ok st rest d2 => parseBodyLoop fuel rest depth (stmts ++ [st]) d2
              | .err e rest d2 =>
                  if e.kind = .parseError then
                    parseBodyLoop fuel (skipToNewlineTk rest) depth stmts d2
                  else .err e rest d2
          else if tok.kind = .BUFFER then
            match parseBufferDecl fuel toks1 d with
            | .ok st rest d2 => parseBodyLoop fuel rest depth (stmts ++ [st]) d2
            | .err e rest d2 =>
                if e.kind = .parseError then
                  parseBodyLoop fuel (skipToNewlineTk rest) depth stmts d2
                else .err e rest d2
          else if tok.kind = .LET then
            match parseLetDecl fuel toks1 d with
            | .ok st rest d2 => parseBodyLoop fuel rest depth (stmts ++ [st]) d2
            | .err e rest d2 =>
                if e.kind = .parseError then
                  parseBodyLoop fuel (skipToNewlineTk rest) depth stmts d2
                else .err e rest d2
          else
            -- unknown top-level statement: skip the line
            parseBodyLoop fuel (skipToNewlineTk toks1) depth stmts d

/-- `_parse_body` with the loop-nesting depth as a natural number with
truncated subtraction, for comparison with the `Int` bookkeeping above. -/
def parseBodyLoopNat : Nat → List Token → Nat → List StmtNode → List Diagnostic →
    PRes (List StmtNode)
  | 0, toks, _, stmts, d => .ok stmts toks d
  | fuel + 1, toks, depth, stmts, d =>
      if atEndTk toks then .ok stmts toks d
      else
        let toks1 := skipNewlinesTk toks
        if atEndTk toks1 then .ok stmts toks1 d
        else
          let tok := peekTk toks1
          if tok.kind = .LOOP then
            parseBodyLoopNat fuel (skipToNewlineTk toks1) (depth + 1) stmts d
          else if tok.kind = .ENDLOOP then
            parseBodyLoopNat fuel (skipToNewlineTk toks1) (depth - 1) stmts d
          else if tok.kind = .CONST then
            if depth > 0 then
              parseBodyLoopNat fuel (skipToNewlineTk toks1) depth stmts
                (d ++ [mkError "Const declaration not permitted inside loop body"
                  (some tok.location)])
            else
              match parseConstDecl fuel toks1 d with
              | .ok st rest d2 => parseBodyLoopNat fuel rest depth (stmts ++ [st]) d2
              | .err e rest d2 =>
                  if e.kind = .parseError then
                    parseBodyLoopNat fuel (skipToNewlineTk rest) depth stmts d2
                  else .err e rest d2
          else if tok.kind = .BUFFER then
            match parseBufferDecl fuel toks1 d with
            | .ok st rest d2 => parseBodyLoopNat fuel rest depth (stmts ++ [st]) d2
            | .err e rest d2 =>
                if e.kind = .parseError then
                  parseBodyLoopNat fuel (skipToNewlineTk rest) depth stmts d2
                else .err e rest d2
          else if tok.kind = .LET then
            match parseLetDecl fuel toks1 d with
            | .ok st rest d2 => parseBodyLoopNat fuel rest depth (stmts ++ [st]) d2
            | .err e rest d2 =>
                if e.kind = .parseError then
                  parseBodyLoopNat fuel (skipToNewlineTk rest) depth stmts d2
                else .err e rest d2
          else
            parseBodyLoopNat fuel (skipToNewlineTk toks1) depth stmts d

/-! ### Headers and the program: `Parser._parse_device_header`,
`_parse_program_header`, `parse_program`, and the module-level `parse`. -/

def parseDeviceHeader (toks : List Token) (d : List Diagnostic) : PRes (Option String) :=
  if (peekTk toks).kind ≠ .DEVICE then .ok none toks d
  else
    (expectTk .STRING_LIT "Expected string after 'device'" (advRest toks) d).bind
      fun tok rest d =>
    .ok (some (stripQuotes tok.lexeme)) rest d

def parseProgramHeader (toks : List Token) (d : List Diagnostic) : PRes (Option String) :=
  if (peekTk toks).kind ≠ .PROGRAM then .ok none toks d
  else
    (expectTk .IDENT "Expected identifier after 'program'" (advRest toks) d).bind
      fun name_tok rest d =>
    (expectTk .COLON "Expected ':' after program name" rest d).bind fun _ rest d =>
    .ok (some name_tok.lexeme) rest d

/-- `Parser.parse_program`: a `ParseError` raised by a header production is
not caught anywhere on this path, so it escapes as an `err` result; so does a
`ValueError` that the statement dispatch loop re-raised. -/
def parseProgram (fuel : Nat) (toks : List Token) (d : List Diagnostic) :
    PRes ProgramNode :=
  let loc := (peekTk toks).location
  let toks1 := skipNewlinesTk toks
  (parseDeviceHeader toks1 d).bind fun device_ref rest d =>
  let rest := skipNewlinesTk rest
  (parseProgramHeader rest d).bind fun program_name rest d =>
  let rest := skipNewlinesTk rest
  (parseBodyLoop fuel rest 0 [] d).bind fun stmts rest d =>
  .ok ⟨device_ref, program_name, stmts, some loc⟩ (skipNewlinesTk rest) d

/-- Fuel strictly exceeding the recursion depth any parse of `toks` can
reach (every recursive parser consumes a token per nesting level or loop
iteration, with a small constant factor for the precedence levels). -/
def parseFuel (toks : List Token) : Nat := 16 * (toks.length + 4)

/-- The module-level `parse(source, filename)` of parser.py: lex, then parse
the program with the shared diagnostics.  An `ok` result is the
`(ProgramNode, DiagnosticCollector)` pair; an `err` result is a `ParseError`
escaping the top-level call. -/
def parse (source : String) (fn : String) : PRes ProgramNode :=
  let (tokens, ds) := tokenize source fn
  parseProgram (parseFuel tokens) tokens ds

/-- The statements of a parse result (empty when the parse raised). -/
def parseStmts (r : PRes ProgramNode) : List StmtNode :=
  match r with
  | .ok p _ _ => p.statements
  | .err _ _ _ => []

/-! ## Lexer lemmas: input consumption, token kinds, fuel irrelevance -/

theorem skipComment_rest_le (chars : List Char) (col : Nat) :
    (skipComment chars col).1.length ≤ chars.length := by
  induction chars generalizing col with
  | nil => simp [skipComment]
  | cons c rest ih =>
      by_cases h : c = '\n'
      · simp [skipComment, h]
      · simp only [skipComment, if_neg h]
        exact le_trans (ih (col + 1)) (by simp)

theorem takeDigits_rest_le (chars : List Char) (col : Nat) :
    (takeDigits chars col).2.1.length ≤ chars.length := by
  induction chars generalizing col with
  | nil => simp [takeDigits]
  | cons c rest ih =>
      rw [takeDigits]
      split
      · exact le_trans (ih (col + 1)) (by simp)
      · simp

theorem takeIdentChars_rest_le (chars : List Char) (col : Nat) :
    (takeIdentChars chars col).2.1.length ≤ chars.length := by
  induction chars generalizing col with
  | nil => simp [takeIdentChars]
  | cons c rest ih =>
      rw [takeIdentChars]
      split
      · exact le_trans (ih (col + 1)) (by simp)
      · simp

theorem scanString_rest_le (fn : String) (sl sc : Nat) (acc chars : List Char)
    (line col : Nat) :
    (scanString fn sl sc acc chars line col).2.1.length ≤ chars.length := by
  induction acc, chars, line, col using scanString.induct fn sl sc
  all_goals rw [scanString.eq_def]
  all_goals dsimp only
  all_goals simp_all
  all_goals omega

theorem scanString_kind (fn : String) (sl sc : Nat) (acc chars : List Char)
    (line col : Nat) :
    (scanString fn sl sc acc chars line col).1.kind = .STRING_LIT := by
  induction acc, chars, line, col using scanString.induct fn sl sc
  all_goals rw [scanString.eq_def]
  all_goals dsimp only
  all_goals simp_all

theorem scanExponent_rest_le (fn : String) (sl : Nat) (chars : List Char) (col : Nat) :
    (scanExponent fn sl chars col).2.1.length ≤ chars.length := by
  match chars with
  | [] => rw [scanExponent.eq_def]
  | e :: rest =>
      rw [scanExponent.eq_def]
      dsimp only
      split
      · split
        · rename_i s rest2
          split
          · split
            · rename_i d rest3
              split
              · have h := takeDigits_rest_le (d :: rest3) (col + 2)
                rcases he : takeDigits (d :: rest3) (col + 2) with ⟨ds, r, c⟩
                rw [he] at h
                simp only [he]
                simp at h ⊢
                omega
              · simp
            · simp
          · split
            · have h := takeDigits_rest_le (s :: rest2) (col + 1)
              rcases he : takeDigits (s :: rest2) (col + 1) with ⟨ds, r, c⟩
              rw [he] at h
              simp only [he]
              simp at h ⊢
              omega
            · simp
        · simp
      · simp

theorem scanNumber_rest_le (fn : String) (sl sc : Nat) (c0 : Char)
    (chars : List Char) (col : Nat) :
    (scanNumber fn sl sc c0 chars col).2.1.length ≤ chars.length := by
  rw [scanNumber]
  have h1 := takeDigits_rest_le chars col
  rcases e1 : takeDigits chars col with ⟨ds1, r1, c1⟩
  rw [e1] at h1
  dsimp only
  split
  · rename_i d rest2
    split
    · have h2 := takeDigits_rest_le (d :: rest2) (c1 + 1)
      rcases e2 : takeDigits (d :: rest2) (c1 + 1) with ⟨ds2, r2, c2⟩
      rw [e2] at h2
      dsimp only
      have h3 := scanExponent_rest_le fn sl r2 c2
      rcases e3 : scanExponent fn sl r2 c2 with ⟨ec, r3, c3, dse⟩
      rw [e3] at h3
      dsimp only
      simp at h1 h2 h3 ⊢
      omega
    · exact h1
  · exact h1

theorem scanNumber_kind (fn : String) (sl sc : Nat) (c0 : Char)
    (chars : List Char) (col : Nat) :
    (scanNumber fn sl sc c0 chars col).1.kind = .INT_LIT
      ∨ (scanNumber fn sl sc c0 chars col).1.kind = .FLOAT_LIT := by
  rw [scanNumber]
  rcases takeDigits chars col with ⟨ds1, r1, c1⟩
  dsimp only
  split
  · split
    · rcases takeDigits _ _ with ⟨ds2, r2, c2⟩
      dsimp only
      rcases scanExponent fn sl r2 c2 with ⟨ec, r3, c3, dse⟩
      simp
    · simp
  · simp

theorem scanIdent_rest_le (fn : String) (sl sc : Nat) (c0 : Char)
    (chars : List Char) (col : Nat) :
    (scanIdent fn sl sc c0 chars col).2.1.length ≤ chars.length := by
  unfold scanIdent
  have h := takeIdentChars_rest_le chars col
  rcases e : takeIdentChars chars col with ⟨ds, r, c⟩
  rw [e] at h
  exact h

/-- Every value of one of the lexer's lookup tables is a non-EOF kind. -/
theorem lookup_kind_ne_eof {κ : Type} [BEq κ] (l : List (κ × TokenKind))
    (h : ∀ p ∈ l, p.2 ≠ TokenKind.EOF) (c : κ) (k : TokenKind)
    (hl : l.lookup c = some k) : k ≠ .EOF := by
  induction l with
  | nil => simp [List.lookup] at hl
  | cons p rest ih =>
      rw [List.lookup] at hl
      split at hl
      · exact (Option.some_inj.mp hl) ▸ h p (by simp)
      · exact ih (fun q hq => h q (by simp [hq])) hl

theorem scanIdent_kind_ne_eof (fn : String) (sl sc : Nat) (c0 : Char)
    (chars : List Char) (col : Nat) :
    (scanIdent fn sl sc c0 chars col).1.kind ≠ .EOF := by
  unfold scanIdent
  rcases takeIdentChars chars col with ⟨ds, r, c⟩
  dsimp only
  rcases hk : KEYWORDS.lookup (String.mk (c0 :: ds)) with _ | k
  · simp [hk]
  · simpa [hk] using lookup_kind_ne_eof KEYWORDS (by decide) _ k hk

/-- No token the scanning loop emits has kind EOF: the one EOF token is the
one `tokenize` appends afterwards. -/
theorem lexLoop_no_eof (fn : String) (fuel : Nat) :
    ∀ (chars : List Char) (line col : Nat) (b : Bool),
      ∀ t ∈ (lexLoop fn fuel chars line col b).1, t.kind ≠ .EOF := by
  induction fuel with
  | zero => intro chars line col b t ht; simp [lexLoop] at ht
  | succ fuel ih =>
      intro chars line col b t ht
      match chars with
      | [] => simp [lexLoop] at ht
      | c :: rest =>
          rw [lexLoop] at ht
          by_cases hws : c = ' ' || c = '\t' || c = '\r'
          · rw [if_pos hws] at ht
            exact ih _ _ _ _ t ht
          · rw [if_neg hws] at ht
            by_cases hcm : c = '#'
            · rw [if_pos hcm] at ht
              exact ih _ _ _ _ t ht
            · rw [if_neg hcm] at ht
              by_cases hnl : c = '\n'
              · rw [if_pos hnl] at ht
                by_cases hb : b
                · rw [if_pos hb] at ht
                  exact ih _ _ _ _ t ht
                · rw [if_neg hb] at ht
                  rcases List.mem_cons.mp ht with h | h
                  · subst h; simp
                  · exact ih _ _ _ _ t h
              · rw [if_neg hnl] at ht
                by_cases hq : c = '"'
                · rw [if_pos hq] at ht
                  have hk := scanString_kind fn line col [] rest line (col + 1)
                  rcases e : scanString fn line col [] rest line (col + 1) with
                    ⟨tok, rest2, line2, col2, dsc⟩
                  rw [e] at hk
                  simp only [e] at ht
                  rcases List.mem_cons.mp ht with h | h
                  · subst h; simp at hk; simp [hk]
                  · exact ih _ _ _ _ t h
                · rw [if_neg hq] at ht
                  by_cases hd : c.isDigit
                  · rw [if_pos hd] at ht
                    have hk := scanNumber_kind fn line col c rest (col + 1)
                    rcases e : scanNumber fn line col c rest (col + 1) with
                      ⟨tok, rest2, col2, dsc⟩
                    rw [e] at hk
                    simp only [e] at ht
                    rcases List.mem_cons.mp ht with h | h
                    · subst h
                      simp at hk
                      rcases hk with hk | hk <;> simp [hk]
                    · exact ih _ _ _ _ t h
                  · rw [if_neg hd] at ht
                    by_cases ha : c.isAlpha || c = '_'
                    · rw [if_pos ha] at ht
                      have hk := scanIdent_kind_ne_eof fn line col c rest (col + 1)
                      rcases e : scanIdent fn line col c rest (col + 1) with
                        ⟨tok, rest2, col2⟩
                      rw [e] at hk
                      simp only [e] at ht
                      rcases List.mem_cons.mp ht with h | h
                      · subst h; exact hk
                      · exact ih _ _ _ _ t h
                    · rw [if_neg ha] at ht
                      by_cases hdot : c = '.'
                      · rw [if_pos hdot] at ht
                        by_cases hpd : rest.headD '\x00' = '.'
                        · rw [if_pos hpd] at ht
                          rcases List.mem_cons.mp ht with h | h
                          · subst h; simp
                          · exact ih _ _ _ _ t h
                        · rw [if_neg hpd] at ht
                          rcases List.mem_cons.mp ht with h | h
                          · subst h; simp
                          · exact ih _ _ _ _ t h
                      · rw [if_neg hdot] at ht
                        rcases hl : SINGLE_CHAR.lookup c with _ | k
                        · simp only [hl] at ht
                          exact ih _ _ _ _ t ht
                        · simp only [hl] at ht
                          rcases List.mem_cons.mp ht with h | h
                          · subst h
                            exact lookup_kind_ne_eof SINGLE_CHAR (by decide) c k hl
                          · exact ih _ _ _ _ t h

/-- Fuel irrelevance for the scanning loop: any fuel beyond the input length
computes the same result — the loop consumes at least one character per
iteration, so its recursion terminates within `chars.length` steps. -/
theorem lexLoop_fuel_stable (fn : String) :
    ∀ (f1 : Nat) (chars : List Char) (line col : Nat) (b : Bool) (f2 : Nat),
      chars.length < f1 → chars.length < f2 →
      lexLoop fn f1 chars line col b = lexLoop fn f2 chars line col b := by
  intro f1
  induction f1 with
  | zero => intro chars _ _ _ _ h1; omega
  | succ f1 ih =>
      intro chars line col b f2 h1 h2
      match f2, chars with
      | f2 + 1, [] => rw [lexLoop, lexLoop]
      | f2 + 1, c :: rest =>
          have hrest : rest.length < f1 := by simp at h1; omega
          have hrest2 : rest.length < f2 := by simp at h2; omega
          rw [lexLoop, lexLoop]
          by_cases hws : c = ' ' || c = '\t' || c = '\r'
          · rw [if_pos hws, if_pos hws]
            exact ih rest line (col + 1) b f2 hrest hrest2
          · rw [if_neg hws, if_neg hws]
            by_cases hcm : c = '#'
            · rw [if_pos hcm, if_pos hcm]
              have hsc2 : (skipComment (c :: rest) col).1.length ≤ rest.length := by
                subst hcm
                rw [skipComment, if_neg (by decide : ¬ ('#' : Char) = '\n')]
                exact skipComment_rest_le rest (col + 1)
              rcases e : skipComment (c :: rest) col with ⟨rest3, col3⟩
              rw [e] at hsc2
              simp only at hsc2
              simp only [e]
              exact ih rest3 line col3 b f2 (by omega) (by omega)
            · rw [if_neg hcm, if_neg hcm]
              by_cases hnl : c = '\n'
              · rw [if_pos hnl, if_pos hnl]
                by_cases hb : b
                · rw [if_pos hb, if_pos hb]
                  exact ih rest (line + 1) 1 b f2 hrest hrest2
                · rw [if_neg hb, if_neg hb]
                  rw [ih rest (line + 1) 1 true f2 hrest hrest2]
              · rw [if_neg hnl, if_neg hnl]
                by_cases hq : c = '"'
                · rw [if_pos hq, if_pos hq]
                  have hs := scanString_rest_le fn line col [] rest line (col + 1)
                  rcases e : scanString fn line col [] rest line (col + 1) with
                    ⟨tok, rest3, line3, col3, dsc⟩
                  rw [e] at hs
                  simp only at hs
                  simp only [e]
                  rw [ih rest3 line3 col3 false f2 (by omega) (by omega)]
                · rw [if_neg hq, if_neg hq]
                  by_cases hd : c.isDigit
                  · rw [if_pos hd, if_pos hd]
                    have hs := scanNumber_rest_le fn line col c rest (col + 1)
                    rcases e : scanNumber fn line col c rest (col + 1) with
                      ⟨tok, rest3, col3, dsc⟩
                    rw [e] at hs
                    simp only at hs
                    simp only [e]
                    rw [ih rest3 line col3 false f2 (by omega) (by omega)]
                  · rw [if_neg hd, if_neg hd]
                    by_cases ha : c.isAlpha || c = '_'
                    · rw [if_pos ha, if_pos ha]
                      have hs := scanIdent_rest_le fn line col c rest (col + 1)
                      rcases e : scanIdent fn line col c rest (col + 1) with
                        ⟨tok, rest3, col3⟩
                      rw [e] at hs
                      simp only at hs
                      simp only [e]
                      rw [ih rest3 line col3 false f2 (by omega) (by omega)]
                    · rw [if_neg ha, if_neg ha]
                      by_cases hdot : c = '.'
                      · rw [if_pos hdot, if_pos hdot]
                        by_cases hpd : rest.headD '\x00' = '.'
                        · rw [if_pos hpd, if_pos hpd]
                          rw [ih rest.tail line (col + 2) false f2
                            (by have := List.length_tail rest; omega)
                            (by have := List.length_tail rest; omega)]
                        · rw [if_neg hpd, if_neg hpd]
                          rw [ih rest line (col + 1) false f2 hrest hrest2]
                      · rw [if_neg hdot, if_neg hdot]
                        rcases hl : SINGLE_CHAR.lookup c with _ | k
                        · simp only [hl]
                          rw [ih rest line (col + 1) false f2 hrest hrest2]
                        · simp only [hl]
                          rw [ih rest line (col + 1) false f2 hrest hrest2]

/-! ## Claims about the constant expression evaluator -/

/-- C2 (counterexample): the claim says `BinaryOp("mod", l, r)` follows the
dividend's sign as in truncating division, so `-7 mod 3` would be `-1`; the
evaluator (Python `%`) returns `2`, the floored remainder, which is neither
`-1` nor of the dividend's sign. -/
theorem C2_mod_counterexample :
    evaluate_const_expr (.binaryOp "mod" (.intLit (-7) none) (.intLit 3 none) none) []
      = .ok 2 ∧ (2 : Int) ≠ -1 ∧ ¬ (2 : Int) < 0 := by
  refine ⟨rfl, by decide, by decide⟩

/-- C2 (amended): for any operands of a `mod` node that evaluate to `l` and a
nonzero `r`, the evaluator returns Python's floored remainder `Int.fmod l r`,
whose sign follows the divisor (`17 mod 5 = 2`, but `-7 mod 3 = 2`). -/
theorem C2_mod_is_floored_remainder (e1 e2 : ExprNode) (env : List (String × Int))
    (loc : Option SourceLocation) (l r : Int)
    (h1 : evaluate_const_expr e1 env = .ok l)
    (h2 : evaluate_const_expr e2 env = .ok r) (h3 : r ≠ 0) :
    evaluate_const_expr (.binaryOp "mod" e1 e2 loc) env = .ok (Int.fmod l r) := by
  simp [evaluate_const_expr, h1, h2, h3]

/-- C2 (witness): the amended statement at `-7 mod 3`, which evaluates to
`Int.fmod (-7) 3 = 2`. -/
theorem C2_mod_is_floored_remainder_witness :
    evaluate_const_expr (.binaryOp "mod" (.intLit (-7) none) (.intLit 3 none) none) []
      = .ok (Int.fmod (-7) 3) :=
  C2_mod_is_floored_remainder (.intLit (-7) none) (.intLit 3 none) [] none (-7) 3
    rfl rfl (by decide)

set_option maxRecDepth 8000 in
/-- C3 (code bug): the claim (and the code's own comment) says `/` returns
the exact quotient truncated toward zero for arbitrarily large operands, but
the code computes `int(left / right)` through a binary64 float: at
`(2^53 + 1) / 1` the evaluator returns `2^53 = 9007199254740992`, not the
exact `9007199254740993`. -/
theorem C3_large_division_is_inexact :
    evaluate_const_expr
      (.binaryOp "/" (.intLit 9007199254740993 none) (.intLit 1 none) none) []
      = .ok 9007199254740992 ∧ (9007199254740992 : Int) ≠ 9007199254740993 := by
  refine ⟨rfl, by decide⟩

/-- C7: whenever both operands of a `/` or `mod` node evaluate successfully
and the right one evaluates to `0`, the evaluator fails with exactly the
typed division-by-zero `ConstEvalError` at the node's location — it returns
no integer and raises no other failure kind. -/
theorem C7_div_mod_by_zero_typed_error (e1 e2 : ExprNode) (env : List (String × Int))
    (loc : Option SourceLocation) (l : Int)
    (h1 : evaluate_const_expr e1 env = .ok l)
    (h2 : evaluate_const_expr e2 env = .ok 0) :
    evaluate_const_expr (.binaryOp "/" e1 e2 loc) env
        = .error (.constEvalError "Division by zero in constant expression" loc)
      ∧ evaluate_const_expr (.binaryOp "mod" e1 e2 loc) env
        = .error (.constEvalError "Division by zero in constant expression" loc) := by
  constructor <;> simp [evaluate_const_expr, h1, h2]

/-- C7 (witness): `10 / 0` and `10 mod 0` both fail with the
division-by-zero error. -/
theorem C7_div_mod_by_zero_typed_error_witness :
    evaluate_const_expr (.binaryOp "/" (.intLit 10 none) (.intLit 0 none) none) []
        = .error (.constEvalError "Division by zero in constant expression" none)
      ∧ evaluate_const_expr (.binaryOp "mod" (.intLit 10 none) (.intLit 0 none) none) []
        = .error (.constEvalError "Division by zero in constant expression" none) :=
  C7_div_mod_by_zero_typed_error (.intLit 10 none) (.intLit 0 none) [] none 10 rfl rfl

/-- C8: an `Identifier` evaluates to its environment entry when the name is
bound, and otherwise fails with the typed forward-reference error naming the
identifier; in particular `B + 1` under an environment without `B` fails with
the forward-reference error naming `B` (at the identifier's location). -/
theorem C8_identifier_env_or_forward_reference :
    (∀ (env : List (String × Int)) (name : String) (loc : Option SourceLocation),
      evaluate_const_expr (.ident name loc) env
        = match envLookup env name with
          | some v => .ok v
          | none => .error (.constEvalError
              ("Forward reference to undeclared constant " ++ name) loc))
    ∧ (∀ (env : List (String × Int)) (loc1 loc2 loc3 : Option SourceLocation),
        envLookup env "B" = none →
        evaluate_const_expr (.binaryOp "+" (.ident "B" loc1) (.intLit 1 loc2) loc3) env
          = .error (.constEvalError "Forward reference to undeclared constant B" loc1))
    ∧ evaluate_const_expr (.binaryOp "+" (.ident "B" none) (.intLit 1 none) none) []
        = .error (.constEvalError "Forward reference to undeclared constant B" none) := by
  refine ⟨fun env name loc => ?_, fun env loc1 loc2 loc3 h => ?_, rfl⟩
  · cases h : envLookup env name <;> simp [evaluate_const_expr, h]
  · simp [evaluate_const_expr, h]

/-! ## Claims about the lexer -/

/-- The guard conditions of the scanning loop's dispatch, all failing: the
character starts no production, so the loop hits its final (unknown
character) branch. -/
def unrecognizedChar (c : Char) : Bool :=
  !(c = ' ' || c = '\t' || c = '\r') && !(c = '#') && !(c = '\n') && !(c = '"')
    && !c.isDigit && !(c.isAlpha || c = '_') && !(c = '.')
    && (SINGLE_CHAR.lookup c).isNone

/-- C4: for every source, `tokenize` terminates (its scanning loop consumes a
character per iteration, so any fuel beyond the input length computes the
same result) and returns a token sequence whose last element is the one and
only EOF token; an unrecognized character produces exactly an Error
diagnostic and scanning continues from the next character — no failure
channel exists.  The concrete part: `"a $ b"` lexes to the two identifiers
plus EOF, with the single `Unexpected character: '$'` diagnostic. -/
theorem C4_tokenize_total_one_eof_last :
    (∀ (source fn : String),
        (tokenize source fn).1 ≠ []
      ∧ ((tokenize source fn).1.getLast?).map Token.kind = some .EOF
      ∧ ((tokenize source fn).1.filter (fun t => t.kind == .EOF)).length = 1)
    ∧ (∀ (fn : String) (f1 : Nat) (chars : List Char) (line col : Nat) (b : Bool) (f2 : Nat),
        chars.length < f1 → chars.length < f2 →
        lexLoop fn f1 chars line col b = lexLoop fn f2 chars line col b)
    ∧ (∀ (fn : String) (fuel : Nat) (c : Char) (rest : List Char) (line col : Nat) (b : Bool),
        unrecognizedChar c = true →
        lexLoop fn (fuel + 1) (c :: rest) line col b
          = ((lexLoop fn fuel rest line (col + 1) false).1,
             mkError ("Unexpected character: " ++ pyCharRepr c) (some ⟨fn, line, col⟩)
               :: (lexLoop fn fuel rest line (col + 1) false).2.1,
             (lexLoop fn fuel rest line (col + 1) false).2.2))
    ∧ (tokenize "a $ b" "<string>").1.map Token.kind = [.IDENT, .IDENT, .EOF]
    ∧ (tokenize "a $ b" "<string>").2
        = [mkError "Unexpected character: '$'" (some ⟨"<string>", 1, 3⟩)] := by
  refine ⟨fun source fn => ?_, lexLoop_fuel_stable, fun fn fuel c rest line col b h => ?_,
    rfl, rfl⟩
  · have hno := lexLoop_no_eof fn (source.length + 1) source.data 1 1 true
    rcases e : lexLoop fn (source.length + 1) source.data 1 1 true with ⟨ts, ds, l2, c2⟩
    rw [e] at hno
    simp only at hno
    refine ⟨by simp [tokenize, e], ?_, ?_⟩
    · simp [tokenize, e, List.getLast?_concat]
    · have hfil : ts.filter (fun t => t.kind == TokenKind.EOF) = [] := by
        rw [List.filter_eq_nil_iff]
        intro t ht
        simpa using hno t ht
      simp [tokenize, e, List.filter_append, hfil]
  · simp only [unrecognizedChar, Bool.and_eq_true, Bool.not_eq_true', Option.isNone_iff_eq_none,
      Bool.or_eq_false_iff, decide_eq_false_iff_not, decide_eq_true_eq] at h
    obtain ⟨⟨⟨⟨⟨⟨⟨hws, hcm⟩, hnl⟩, hq⟩, hd⟩, ha⟩, hdot⟩, hl⟩ := h
    rw [lexLoop]
    rw [if_neg (by simp [hws.1.1, hws.1.2, hws.2])]
    rw [if_neg (by simp [hcm])]
    rw [if_neg (by simp [hnl])]
    rw [if_neg (by simp [hq])]
    rw [if_neg (by simp [hd])]
    rw [if_neg (by simp [ha.1, ha.2])]
    rw [if_neg (by simp [hdot])]
    rw [hl]

/-- C5: a `.` right after a digit run starts a float only when a digit
follows it — `0..T` lexes as `INT(0) DOTDOT IDENT(T)`, `1..5` as
`INT(1) DOTDOT INT(5)`, `1.5` as one FLOAT_LIT — and two consecutive dots at
the scanning position always lex as a single DOTDOT token, never as two DOT
tokens. -/
theorem C5_float_vs_dotdot_lexing :
    (tokenize "0..T" "<string>").1.map (fun t => (t.kind, t.lexeme))
        = [(.INT_LIT, "0"), (.DOTDOT, ".."), (.IDENT, "T"), (.EOF, "")]
    ∧ (tokenize "1..5" "<string>").1.map (fun t => (t.kind, t.lexeme))
        = [(.INT_LIT, "1"), (.DOTDOT, ".."), (.INT_LIT, "5"), (.EOF, "")]
    ∧ (tokenize "1.5" "<string>").1.map (fun t => (t.kind, t.lexeme))
        = [(.FLOAT_LIT, "1.5"), (.EOF, "")]
    ∧ (tokenize ".." "<string>").1.map (fun t => (t.kind, t.lexeme))
        = [(.DOTDOT, ".."), (.EOF, "")]
    ∧ (∀ (fn : String) (fuel : Nat) (rest : List Char) (line col : Nat) (b : Bool),
        lexLoop fn (fuel + 1) ('.' :: '.' :: rest) line col b
          = ((⟨.DOTDOT, "..", ⟨fn, line, col⟩⟩ : Token)
               :: (lexLoop fn fuel rest line (col + 2) false).1,
             (lexLoop fn fuel rest line (col + 2) false).2)) := by
  refine ⟨rfl, rfl, rfl, rfl, fun fn fuel rest line col b => ?_⟩
  rw [lexLoop]
  rw [if_neg (by decide)]
  rw [if_neg (by decide)]
  rw [if_neg (by decide)]
  rw [if_neg (by decide)]
  rw [if_neg (by decide)]
  rw [if_neg (by decide)]
  rw [if_pos (by decide)]
  rw [if_pos (by simp)]
  rcases e : lexLoop fn fuel rest line (col + 2) false with ⟨ts, ds, l2, c2⟩
  simp [e]

/-! ## Parser lemmas -/

/-- `_skip_newlines` is idempotent: the token it stops at is not a NEWLINE. -/
theorem skipNewlinesTk_idem (toks : List Token) :
    skipNewlinesTk (skipNewlinesTk toks) = skipNewlinesTk toks := by
  induction toks with
  | nil => rfl
  | cons t rest ih =>
      rw [skipNewlinesTk]
      by_cases h : t.kind = .NEWLINE
      · rw [if_pos h]; exact ih
      · rw [if_neg h, skipNewlinesTk, if_neg h]

/-- `_peek_past_newlines` is the kind of the token `_skip_newlines` stops at
(EOF on an empty list, matching the peek fallback). -/
theorem peekPastNewlinesTk_eq (toks : List Token) :
    peekPastNewlinesTk toks = (peekTk (skipNewlinesTk toks)).kind := by
  induction toks with
  | nil => rfl
  | cons t rest ih =>
      rw [peekPastNewlinesTk, skipNewlinesTk]
      by_cases h : t.kind = .NEWLINE
      · rw [if_pos h, if_pos h]; exact ih
      · rw [if_neg h, if_neg h]; rfl

/-- The exception class of an error result (`none` for a success). -/
def PRes.errExc {α : Type} : PRes α → Option ExcKind
  | .ok _ _ _ => none
  | .err e _ _ => some e.kind

/-- Every error the statement dispatch loop lets escape is a `ValueError`:
its handlers catch every `ParseError` (recovering at the next newline), so
the only errors it re-raises are those of the other kind. -/
theorem parseBodyLoop_err_valueError :
    ∀ (fuel : Nat) (toks : List Token) (depth : Int) (stmts : List StmtNode)
      (d : List Diagnostic) (e : ParseErr) (r2 : List Token) (d2 : List Diagnostic),
      parseBodyLoop fuel toks depth stmts d = .err e r2 d2 → e.kind = .valueError := by
  intro fuel
  induction fuel with
  | zero => intro toks depth stmts d e r2 d2 h; exact PRes.noConfusion h
  | succ fuel ih =>
      intro toks depth stmts d e r2 d2 h
      simp only [parseBodyLoop] at h
      by_cases h1 : atEndTk toks = true
      · rw [if_pos h1] at h; exact PRes.noConfusion h
      · rw [if_neg h1] at h
        by_cases h2 : atEndTk (skipNewlinesTk toks) = true
        · rw [if_pos h2] at h; exact PRes.noConfusion h
        · rw [if_neg h2] at h
          by_cases h3 : (peekTk (skipNewlinesTk toks)).kind = .LOOP
          · rw [if_pos h3] at h; exact ih _ _ _ _ _ _ _ h
          · rw [if_neg h3] at h
            by_cases h4 : (peekTk (skipNewlinesTk toks)).kind = .ENDLOOP
            · rw [if_pos h4] at h; exact ih _ _ _ _ _ _ _ h
            · rw [if_neg h4] at h
              by_cases h5 : (peekTk (skipNewlinesTk toks)).kind = .CONST
              · rw [if_pos h5] at h
                by_cases h6 : depth > 0
                · rw [if_pos h6] at h; exact ih _ _ _ _ _ _ _ h
                · rw [if_neg h6] at h
                  rcases hc : parseConstDecl fuel (skipNewlinesTk toks) d with
                      ⟨st, rest, dd⟩ | ⟨er, rest, dd⟩ <;> simp only [hc] at h
                  · exact ih _ _ _ _ _ _ _ h
                  · by_cases h7 : er.kind = .parseError
                    · rw [if_pos h7] at h; exact ih _ _ _ _ _ _ _ h
                    · rw [if_neg h7] at h
                      injection h with he _ _
                      subst he
                      cases hk : er.kind
                      · exact absurd hk h7
                      · rfl
              · rw [if_neg h5] at h
                by_cases h8 : (peekTk (skipNewlinesTk toks)).kind = .BUFFER
                · rw [if_pos h8] at h
                  rcases hb : parseBufferDecl fuel (skipNewlinesTk toks) d with
                      ⟨st, rest, dd⟩ | ⟨er, rest, dd⟩ <;> simp only [hb] at h
                  · exact ih _ _ _ _ _ _ _ h
                  · by_cases h7 : er.kind = .parseError
                    · rw [if_pos h7] at h; exact ih _ _ _ _ _ _ _ h
                    · rw [if_neg h7] at h
                      injection h with he _ _
                      subst he
                      cases hk : er.kind
                      · exact absurd hk h7
                      · rfl
                · rw [if_neg h8] at h
                  by_cases h9 : (peekTk (skipNewlinesTk toks)).kind = .LET
                  · rw [if_pos h9] at h
                    rcases hl : parseLetDecl fuel (skipNewlinesTk toks) d with
                        ⟨st, rest, dd⟩ | ⟨er, rest, dd⟩ <;> simp only [hl] at h
                    · exact ih _ _ _ _ _ _ _ h
                    · by_cases h7 : er.kind = .parseError
                      · rw [if_pos h7] at h; exact ih _ _ _ _ _ _ _ h
                      · rw [if_neg h7] at h
                        injection h with he _ _
                        subst he
                        cases hk : er.kind
                        · exact absurd hk h7
                        · rfl
                  · rw [if_neg h9] at h
                    exact ih _ _ _ _ _ _ _ h

/-- The error exits of `parse_program`: when the escaping error is not the
uncaught `ValueError` kind, it is a header `ParseError`, so the first
non-newline token opens a `device` or `program` header — on any other first
token both header parsers return without touching the stream, and the
statement dispatch loop only lets `ValueError`s through. -/
theorem parseProgram_err_kind (fuel : Nat) (toks : List Token) (d : List Diagnostic)
    (h : (parseProgram fuel toks d).isErr = true)
    (hv : (parseProgram fuel toks d).errExc ≠ some .valueError) :
    (peekTk (skipNewlinesTk toks)).kind = .DEVICE
    ∨ (peekTk (skipNewlinesTk toks)).kind = .PROGRAM := by
  by_cases hd : (peekTk (skipNewlinesTk toks)).kind = .DEVICE
  · exact Or.inl hd
  by_cases hp : (peekTk (skipNewlinesTk toks)).kind = .PROGRAM
  · exact Or.inr hp
  exfalso
  have e1 : parseDeviceHeader (skipNewlinesTk toks) d = .ok none (skipNewlinesTk toks) d := by
    rw [parseDeviceHeader, if_pos hd]
  have e2 : parseProgramHeader (skipNewlinesTk toks) d = .ok none (skipNewlinesTk toks) d := by
    rw [parseProgramHeader, if_pos hp]
  simp only [parseProgram, skipNewlinesTk_idem, e1, PRes.bind, e2] at h hv
  rcases eb : parseBodyLoop fuel (skipNewlinesTk toks) 0 [] d with
      ⟨stmts, rest2, d2⟩ | ⟨er, rest2, d2⟩
  · rw [eb] at h
    simp [PRes.bind, PRes.isErr, PRes.isOk] at h
  · rw [eb] at hv
    have hk := parseBodyLoop_err_valueError fuel (skipNewlinesTk toks) 0 [] d er rest2 d2 eb
    simp [PRes.bind, PRes.errExc, hk] at hv

/-- The message of an error result (empty for a success). -/
def PRes.errMessage {α : Type} : PRes α → String
  | .ok _ _ _ => ""
  | .err e _ _ => e.message

/-! ## Claims about the parser -/

/-- C1 is refuted as stated: a production failure in the optional
`device "path"` header is NOT caught at a statement boundary — `parse_program`
runs the header productions outside any try/except, so the ParseError raised
by `_expect(STRING_LIT, ...)` escapes the top-level `parse` call.  On the
source `device 123` the parse raises with exactly that header message. -/
theorem C1_header_error_escapes_counterexample :
    (parse "device 123" "<string>").isErr = true
    ∧ (parse "device 123" "<string>").errMessage = "Expected string after 'device'" :=
  ⟨rfl, rfl⟩

set_option maxRecDepth 8000 in
/-- C1 (amended): an exception escapes the top-level `parse` call in exactly
two ways.  A `ParseError` from one of the two optional header productions,
which `parse_program` runs outside any try/except — possible only when the
first non-newline token opens a `device` or `program` header; everywhere
else a `ParseError` is caught at a statement boundary and the parser
resynchronizes.  Or a `ValueError` from `float(tok.lexeme)` in
`_parse_primary` on a malformed float lexeme, which matches none of the
`except ParseError` handlers: concretely, `const X = 1.5e` escapes with the
uncaught `ValueError` although its first token is CONST. -/
theorem C1_uncaught_exception_paths :
    (∀ (source fn : String), (parse source fn).isErr = true →
        (parse source fn).errExc = some .valueError
      ∨ peekPastNewlinesTk (tokenize source fn).1 = .DEVICE
      ∨ peekPastNewlinesTk (tokenize source fn).1 = .PROGRAM)
    ∧ (parse "const X = 1.5e" "<string>").errExc = some .valueError
    ∧ (parse "const X = 1.5e" "<string>").errMessage
        = "could not convert string to float: '1.5e'"
    ∧ peekPastNewlinesTk (tokenize "const X = 1.5e" "<string>").1 = .CONST
    ∧ (parse "device 123" "<string>").errExc = some .parseError := by
  refine ⟨fun source fn h => ?_, by decide, by with_unfolding_all rfl, by decide, by decide⟩
  by_cases hv : (parse source fn).errExc = some .valueError
  · exact Or.inl hv
  · rcases et : tokenize source fn with ⟨tokens, ds⟩
    simp only [parse, et] at h hv
    have := parseProgram_err_kind (parseFuel tokens) tokens ds h hv
    exact Or.inr (by simpa [et, peekPastNewlinesTk_eq] using this)

set_option maxRecDepth 8000 in
/-- C6: a malformed statement does not prevent later valid statements from
being parsed: on `buffer BAD DDR (size=1024)\nbuffer GOOD : L2 (size=512)`
(the first line is missing the `:` before its memory level) the parse records
an Error diagnostic, recovers at the newline, and the resulting program still
contains the buffer declaration `GOOD` with memory level `L2`. -/
theorem C6_malformed_statement_recovery :
    hasErrors (parse "buffer BAD DDR (size=1024)\nbuffer GOOD : L2 (size=512)"
        "<string>").diags = true
    ∧ (parseStmts (parse "buffer BAD DDR (size=1024)\nbuffer GOOD : L2 (size=512)"
        "<string>")).any
        (fun s => match s with
          | .bufferDecl name mem_level _ _ _ _ _ => name == "GOOD" && mem_level == "L2"
          | _ => false) = true :=
  ⟨by decide, by decide⟩

/-! ### Decidable structural equality of expression nodes (fueled), with its
soundness lemma, used to state concrete equalities of parsed element lists. -/

mutual

def beqExpr : Nat → ExprNode → ExprNode → Bool
  | 0, _, _ => false
  | fuel + 1, a, b =>
      match a, b with
      | .intLit v l, .intLit v2 l2 => v == v2 && l == l2
      | .floatLit s l, .floatLit s2 l2 => s == s2 && l == l2
      | .ident n l, .ident n2 l2 => n == n2 && l == l2
      | .binaryOp o x y l, .binaryOp o2 x2 y2 l2 =>
          o == o2 && beqExpr fuel x x2 && beqExpr fuel y y2 && l == l2
      | .unaryOp o x l, .unaryOp o2 x2 l2 => o == o2 && beqExpr fuel x x2 && l == l2
      | .parenExpr x l, .parenExpr x2 l2 => beqExpr fuel x x2 && l == l2
      | .stringLit s l, .stringLit s2 l2 => s == s2 && l == l2
      | .arrayLit es l, .arrayLit es2 l2 => beqExprList fuel es es2 && l == l2
      | _, _ => false

def beqExprList : Nat → List ExprNode → List ExprNode → Bool
  | 0, _, _ => false
  | _ + 1, [], [] => true
  | fuel + 1, e :: es, e2 :: es2 => beqExpr fuel e e2 && beqExprList fuel es es2
  | _ + 1, _ :: _, [] => false
  | _ + 1, [], _ :: _ => false

end

theorem beqExpr_sound (fuel : Nat) :
    (∀ a b, beqExpr fuel a b = true → a = b)
    ∧ (∀ es es2, beqExprList fuel es es2 = true → es = es2) := by
  induction fuel with
  | zero =>
      exact ⟨fun a b h => by simp [beqExpr] at h,
             fun es es2 h => by simp [beqExprList] at h⟩
  | succ fuel ih =>
      refine ⟨fun a b h => ?_, fun es es2 h => ?_⟩
      · cases a <;> cases b <;>
          simp only [beqExpr, Bool.and_eq_true, beq_iff_eq] at h <;>
          (try cases Bool.false_ne_true h)
        all_goals first
          | (obtain ⟨⟨⟨h1, h2⟩, h3⟩, h4⟩ := h; subst h1; subst h4;
              rw [ih.1 _ _ h2, ih.1 _ _ h3])
          | (obtain ⟨⟨h1, h2⟩, h3⟩ := h; subst h1; subst h3; rw [ih.1 _ _ h2])
          | (obtain ⟨h1, h2⟩ := h; subst h1; subst h2; rfl)
          | (obtain ⟨h1, h2⟩ := h; subst h2; rw [ih.1 _ _ h1])
          | (obtain ⟨h1, h2⟩ := h; subst h2; rw [ih.2 _ _ h1])
      · cases es <;> cases es2 <;>
          simp only [beqExprList, Bool.and_eq_true] at h <;>
          (try cases Bool.false_ne_true h) <;>
          (try rfl)
        obtain ⟨h1, h2⟩ := h
        rw [ih.1 _ _ h1, ih.2 _ _ h2]

/-- The shape element list of the sole region declaration (via `let ... =
region(...)`) of a statement list, used to compare parses concretely. -/
def soleRegionShape : List StmtNode → List ExprNode
  | [.regionDecl _ _ _ _ (some ta) _ _] => ta.shape
  | _ => []

/-- The array-literal element list of the sole `let` declaration of a
statement list. -/
def soleLetArrayElems : List StmtNode → List ExprNode
  | [.letDecl _ (.arrayLit es _) _] => es
  | _ => []

set_option maxRecDepth 8000 in
/-- C9: in each of the three bracketed-list loops (expression lists, value
lists, array literals) a trailing comma immediately followed by `]` is
consumed and yields exactly the result the loop yields without it;
concretely, `shape=[1,2,]` parses to the same two-element shape list as
`shape=[1,2]`, and the array literal `[1, 2,]` to the same element list as
`[1, 2]`, with no diagnostics. -/
theorem C9_trailing_comma_lists :
    (∀ (fuel : Nat) (acc : List ExprNode) (toks : List Token) (d : List Diagnostic)
        (c r : Token), c.kind = .COMMA → r.kind = .RBRACKET →
        exprListLoop (fuel + 1) acc (c :: r :: toks) d = .ok acc (r :: toks) d
      ∧ exprListLoop (fuel + 1) acc (r :: toks) d = .ok acc (r :: toks) d)
    ∧ (∀ (fuel : Nat) (acc : List ExprNode) (toks : List Token) (d : List Diagnostic)
        (c r : Token), c.kind = .COMMA → r.kind = .RBRACKET →
        valueListLoop (fuel + 1) acc (c :: r :: toks) d = .ok acc (r :: toks) d
      ∧ valueListLoop (fuel + 1) acc (r :: toks) d = .ok acc (r :: toks) d)
    ∧ (∀ (fuel : Nat) (acc : List ExprNode) (toks : List Token) (d : List Diagnostic)
        (c r : Token), c.kind = .COMMA → r.kind = .RBRACKET →
        arrayLitLoop (fuel + 1) acc (c :: r :: toks) d = .ok acc (r :: toks) d
      ∧ arrayLitLoop (fuel + 1) acc (r :: toks) d = .ok acc (r :: toks) d)
    ∧ soleRegionShape
          (parseStmts (parse "let R = region(B, 0, 4) elem=i8, shape=[1,2,]" "<string>"))
        = soleRegionShape
          (parseStmts (parse "let R = region(B, 0, 4) elem=i8, shape=[1,2]" "<string>"))
    ∧ (soleRegionShape
          (parseStmts (parse "let R = region(B, 0, 4) elem=i8, shape=[1,2,]" "<string>"))).length
        = 2
    ∧ (parse "let R = region(B, 0, 4) elem=i8, shape=[1,2,]" "<string>").diags = []
    ∧ (parse "let R = region(B, 0, 4) elem=i8, shape=[1,2]" "<string>").diags = []
    ∧ soleLetArrayElems (parseStmts (parse "let A = [1, 2,]" "<string>"))
        = soleLetArrayElems (parseStmts (parse "let A = [1, 2]" "<string>"))
    ∧ (soleLetArrayElems (parseStmts (parse "let A = [1, 2,]" "<string>"))).length = 2
    ∧ (parse "let A = [1, 2,]" "<string>").diags = []
    ∧ (parse "let A = [1, 2]" "<string>").diags = [] := by
  refine ⟨fun fuel acc toks d c r hc hr => ⟨?_, ?_⟩,
    fun fuel acc toks d c r hc hr => ⟨?_, ?_⟩,
    fun fuel acc toks d c r hc hr => ⟨?_, ?_⟩,
    (beqExpr_sound 8).2 _ _ (by decide), by decide, by decide, by decide,
    (beqExpr_sound 8).2 _ _ (by decide), by decide, by decide, by decide⟩
  · rw [exprListLoop]; simp [peekTk, advRest, hc, hr]
  · rw [exprListLoop]; simp [peekTk, hr]
  · rw [valueListLoop]; simp [peekTk, advRest, hc, hr]
  · rw [valueListLoop]; simp [peekTk, hr]
  · rw [arrayLitLoop]; simp [peekTk, advRest, hc, hr]
  · rw [arrayLitLoop]; simp [peekTk, hr]

/-- The `loop_depth` bookkeeping of `_parse_body` — increment on `loop`,
decrement on `endloop` only when positive — started from a natural number is
exactly natural-number arithmetic with truncated subtraction; in particular
the depth can never become negative. -/
theorem parseBodyLoop_int_eq_nat :
    ∀ (fuel : Nat) (toks : List Token) (n : Nat) (stmts : List StmtNode)
      (d : List Diagnostic),
      parseBodyLoop fuel toks (n : Int) stmts d = parseBodyLoopNat fuel toks n stmts d := by
  intro fuel
  induction fuel with
  | zero => intro toks n stmts d; rfl
  | succ fuel ih =>
      intro toks n stmts d
      simp only [parseBodyLoop, parseBodyLoopNat]
      by_cases h1 : atEndTk toks = true
      · rw [if_pos h1, if_pos h1]
      · rw [if_neg h1, if_neg h1]
        by_cases h2 : atEndTk (skipNewlinesTk toks) = true
        · rw [if_pos h2, if_pos h2]
        · rw [if_neg h2, if_neg h2]
          by_cases h3 : (peekTk (skipNewlinesTk toks)).kind = .LOOP
          · rw [if_pos h3, if_pos h3]
            have e : ((n : Int) + 1) = ((n + 1 : Nat) : Int) := by push_cast; ring
            rw [e, ih]
          · rw [if_neg h3, if_neg h3]
            by_cases h4 : (peekTk (skipNewlinesTk toks)).kind = .ENDLOOP
            · rw [if_pos h4, if_pos h4]
              rcases n with _ | m
              · rw [if_neg (by simp)]
                exact ih _ 0 _ _
              · rw [if_pos (by exact_mod_cast Nat.succ_pos m)]
                have e : ((m + 1 : Nat) : Int) - 1 = (m : Int) := by push_cast; ring
                rw [e, Nat.succ_sub_one, ih]
            · rw [if_neg h4, if_neg h4]
              by_cases h5 : (peekTk (skipNewlinesTk toks)).kind = .CONST
              · rw [if_pos h5, if_pos h5]
                by_cases h6 : 0 < n
                · rw [if_pos (by exact_mod_cast h6), if_pos h6, ih]
                · rw [if_neg (by exact_mod_cast h6), if_neg h6]
                  rcases hc : parseConstDecl fuel (skipNewlinesTk toks) d with
                      ⟨st, rest, d2⟩ | ⟨er, rest, d2⟩ <;> simp only [hc]
                  · exact ih _ _ _ _
                  · by_cases hk : er.kind = .parseError
                    · rw [if_pos hk, if_pos hk]; exact ih _ _ _ _
                    · rw [if_neg hk, if_neg hk]
              · rw [if_neg h5, if_neg h5]
                by_cases h7 : (peekTk (skipNewlinesTk toks)).kind = .BUFFER
                · rw [if_pos h7, if_pos h7]
                  rcases hb : parseBufferDecl fuel (skipNewlinesTk toks) d with
                      ⟨st, rest, d2⟩ | ⟨er, rest, d2⟩ <;> simp only [hb]
                  · exact ih _ _ _ _
                  · by_cases hk : er.kind = .parseError
                    · rw [if_pos hk, if_pos hk]; exact ih _ _ _ _
                    · rw [if_neg hk, if_neg hk]
                · rw [if_neg h7, if_neg h7]
                  by_cases h8 : (peekTk (skipNewlinesTk toks)).kind = .LET
                  · rw [if_pos h8, if_pos h8]
                    rcases hl : parseLetDecl fuel (skipNewlinesTk toks) d with
                        ⟨st, rest, d2⟩ | ⟨er, rest, d2⟩ <;> simp only [hl]
                    · exact ih _ _ _ _
                    · by_cases hk : er.kind = .parseError
                      · rw [if_pos hk, if_pos hk]; exact ih _ _ _ _
                      · rw [if_neg hk, if_neg hk]
                  · rw [if_neg h8, if_neg h8]
                    exact ih _ _ _ _

set_option maxRecDepth 8000 in
/-- C10 is refuted as stated: on `endloop\nloop\nconst X = 1` the `const`
declaration is preceded by one `endloop` line and one `loop` line — at least
as many `endloop` as `loop` lines — yet because the unmatched `endloop` left
the depth clamped at 0, the following `loop` raises it to 1 and the const is
rejected: no statement is produced and the "Const declaration not permitted
inside loop body" diagnostic IS emitted. -/
theorem C10_endloop_count_counterexample :
    (parseStmts (parse "endloop\nloop\nconst X = 1" "<string>")).isEmpty = true
    ∧ (parse "endloop\nloop\nconst X = 1" "<string>").diags.any
        (fun dg => dg.message == "Const declaration not permitted inside loop body") = true :=
  ⟨by decide, by decide⟩

set_option maxRecDepth 8000 in
/-- C10 (amended): the loop-nesting depth is never negative — starting from a
natural number, the `Int` bookkeeping of `_parse_body` (decrement only when
positive) coincides with natural-number arithmetic with truncated
subtraction, so an `endloop` with no open `loop` is ignored and the depth
stays 0; a `const` is accepted exactly when the clamped depth is 0 at its
line (a mere count comparison of preceding `endloop` and `loop` lines is not
sufficient).  Concretely, after a lone unmatched `endloop` a following
`const X = 1` is accepted as a top-level ConstDecl with no diagnostic. -/
theorem C10_loop_depth_clamped_at_zero :
    (∀ (fuel : Nat) (toks : List Token) (n : Nat) (stmts : List StmtNode)
        (d : List Diagnostic),
        parseBodyLoop fuel toks (n : Int) stmts d = parseBodyLoopNat fuel toks n stmts d)
    ∧ (parseStmts (parse "endloop\nconst X = 1" "<string>")).any
        (fun s => match s with
          | .constDecl name (.intLit v _) _ => name == "X" && v == 1
          | _ => false) = true
    ∧ (parse "endloop\nconst X = 1" "<string>").diags = [] :=
  ⟨parseBodyLoop_int_eq_nat, by decide, by decide⟩

end Nem
